import Mathlib

/-!
# OAuth credential lifecycle manager (package `auth`)

A shallow embedding of `auth/model.go`, `auth/inmem.go`, `auth/mongo.go`,
`auth/cipher.go` and `auth/client.go`, and of `generateKey` of `client_cache.go`,
followed by theorems about it.

Conventions of the embedding:

* A Go pointer `*T` that may be nil is an `Option T`; dereferencing `none`
  is the outcome `Outcome.panic`.
* `time.Time` is an integer number of nanoseconds on one time line, and every
  call of `time.Now()` is an explicit argument (see `Clock`).
* A Go `error` is a value of `Error`; `nil` is `none`.
* Mutable objects (the map of the in-memory store, the Mongo collection, the
  header map of a request) are passed in and returned explicitly.
-/

namespace Auth

/-! ## Time -/

/-- An instant: nanoseconds on a single time line (`time.Time`). -/
abbrev Time := Int

/-- The zero value `time.Time{}`. -/
def zeroTime : Time := 0

/-- Go `t.After(u)`: `t` is strictly later than `u`. -/
def Time.After (t u : Time) : Bool := decide (u < t)

/-- Wrap an integer into the range of a signed 64-bit machine integer. -/
def wrapInt64 (x : Int) : Int := (x + 2 ^ 63) % 2 ^ 64 - 2 ^ 63

/-- Nanoseconds in `time.Second`. -/
def Second : Int := 1000000000

/-- Nanoseconds in `time.Millisecond`. -/
def Millisecond : Int := 1000000

/-- The BSON datetime the driver writes for a `time.Time` (`primitive.NewDateTimeFromTime`:
`t.Unix()*1e3 + int64(t.Nanosecond())/1e6`): the whole milliseconds since the epoch,
rounded down, as a signed 64-bit integer. -/
def bsonDateTime (t : Time) : Int := wrapInt64 (t / 1000000)

/-- The `time.Time` the driver reads from a BSON datetime (`time.Unix(dt/1000,
dt%1000*1000000)`): the instant that many milliseconds after the epoch. -/
def bsonTime (dt : Int) : Time := dt * 1000000

/-! ## model.go -/

/-- Go `OAuthTokens`. -/
structure OAuthTokens where
  AccessToken : String
  RefreshToken : String
  ExpiresIn : Int
deriving DecidableEq, Repr

/-- Go `OAuthCredentials`. -/
structure OAuthCredentials where
  UserKey : String
  ClientID : String
  ClientSecret : String
deriving DecidableEq, Repr

/-! ## Errors -/

/-- The error values the package creates, one constructor per `errors.New` /
`fmt.Errorf` site, and `external` for errors handed up from a library
(transport, JSON decoding, the Mongo driver, the AEAD). -/
inductive Error where
  | tokenNotFound
  | tokenExpired
  | missingUserKey
  | noAccessToken
  | oauthRequestFailed
  | ciphertextTooShort
  | aes256KeyLength
  | external (msg : String)
deriving DecidableEq, Repr

/-- The message of an error (`err.Error()`). -/
def Error.msg : Error → String
  | .tokenNotFound => "token not found"
  | .tokenExpired => "token expired"
  | .missingUserKey => "missing user key"
  | .noAccessToken => "no access token"
  | .oauthRequestFailed => "oauth request failed"
  | .ciphertextTooShort => "ciphertext too short"
  | .aes256KeyLength => "AES-256 requires 32-byte key"
  | .external m => m

/-! ## interfaces.go -/

/-- The four results of `TokenStore.Load`. -/
structure LoadResult where
  tokens : Option OAuthTokens
  creds : Option OAuthCredentials
  expiresAt : Time
  err : Option Error
deriving DecidableEq, Repr

/-- Interface `TokenStore` over a back end whose mutable state has type `σ`.
`Load` receives the reading of the clock that the implementation may take. -/
structure TokenStore (σ : Type) where
  Load : Time → σ → String → LoadResult × σ
  Save : σ → String → OAuthTokens → Option OAuthCredentials → Time → Option Error × σ

/-! ## inmem.go -/

/-- Go `memoryEntry`. -/
structure memoryEntry where
  tokens : OAuthTokens
  creds : Option OAuthCredentials
  expiresAt : Time
deriving DecidableEq, Repr

/-- Go `InMemoryTokenStore`: the map `store` (the mutex is not modelled, every
operation below is one critical section). -/
structure InMemoryTokenStore where
  store : String → Option memoryEntry

/-- Go `NewInMemoryTokenStore`: the empty map. -/
def NewInMemoryTokenStore : InMemoryTokenStore := ⟨fun _ => none⟩

/-- Go `m.store[k] = e`. -/
def InMemoryTokenStore.insert (m : InMemoryTokenStore) (k : String) (e : memoryEntry) :
    InMemoryTokenStore :=
  ⟨fun k' => if k' = k then some e else m.store k'⟩

/-- Go `delete(m.store, k)`. -/
def InMemoryTokenStore.delete (m : InMemoryTokenStore) (k : String) : InMemoryTokenStore :=
  ⟨fun k' => if k' = k then none else m.store k'⟩

/-- Go `(*InMemoryTokenStore).Save` (inmem.go:29-54). The defensive copy of
`creds` is the identity on values; a nil `creds` stays nil. -/
def InMemoryTokenStore.Save (m : InMemoryTokenStore) (userKey : String) (tokens : OAuthTokens)
    (creds : Option OAuthCredentials) (expiresAt : Time) : Option Error × InMemoryTokenStore :=
  let storedCreds : Option OAuthCredentials :=
    match creds with
    | some c => some c
    | none => none
  (none, m.insert userKey { tokens := tokens, creds := storedCreds, expiresAt := expiresAt })

/-- Go `(*InMemoryTokenStore).Load` (inmem.go:56-83); `now` is the value of
`time.Now()` at line 69. -/
def InMemoryTokenStore.Load (now : Time) (m : InMemoryTokenStore) (userKey : String) :
    LoadResult × InMemoryTokenStore :=
  match m.store userKey with
  | none => ({ tokens := none, creds := none, expiresAt := zeroTime, err := some .tokenNotFound }, m)
  | some entry =>
    if now.After entry.expiresAt then
      ({ tokens := none, creds := none, expiresAt := zeroTime, err := some .tokenExpired },
        m.delete userKey)
    else
      let tokens := entry.tokens
      let creds : Option OAuthCredentials :=
        match entry.creds with
        | some c => some c
        | none => none
      ({ tokens := some tokens, creds := creds, expiresAt := entry.expiresAt, err := none }, m)

/-- The in-memory store as a `TokenStore`. -/
def inMemoryTokenStore : TokenStore InMemoryTokenStore where
  Load := InMemoryTokenStore.Load
  Save := InMemoryTokenStore.Save

/-! ## mongo.go

The Mongo driver is a library outside the repository. A collection is modelled
as a map from the value of `user_key` to the document holding it, `FindOne` as a
lookup and `UpdateOne` with `$set` and `SetUpsert(true)` as a field-wise merge
into the document found (or into a new document holding the filter's `user_key`).
A `Document` is the document as stored, after the driver has encoded the `bson.M`:
a `time.Time` is stored as a BSON datetime, in whole milliseconds (`bsonDateTime`), and
read back with `bsonTime`. Failures of the connection to the database are not
modelled. -/

/-- One byte. -/
abbrev Byte := Fin 256

/-- A BSON document of the token collection; every field is present or absent.
`expires_at` is a BSON datetime: milliseconds since the epoch. -/
structure Document where
  user_key : Option String
  access_token : Option String
  refresh_token : Option String
  expires_at : Option Int
  client_id : Option String
  client_secret : Option String
  data : Option (List Byte)
deriving DecidableEq, Repr

/-- The document without any field. -/
def Document.empty : Document :=
  { user_key := none, access_token := none, refresh_token := none, expires_at := none,
    client_id := none, client_secret := none, data := none }

/-- The effect of `$set`: a field of the update replaces the field of the document. -/
def Document.set (d upd : Document) : Document :=
  { user_key := upd.user_key <|> d.user_key
    access_token := upd.access_token <|> d.access_token
    refresh_token := upd.refresh_token <|> d.refresh_token
    expires_at := upd.expires_at <|> d.expires_at
    client_id := upd.client_id <|> d.client_id
    client_secret := upd.client_secret <|> d.client_secret
    data := upd.data <|> d.data }

/-- A collection: at most one document per `user_key`. -/
structure Collection where
  docs : String → Option Document

/-- The collection without documents. -/
def Collection.empty : Collection := ⟨fun _ => none⟩

/-- The driver call `FindOne(ctx, bson.M{"user_key": userKey})`. -/
def Collection.FindOne (col : Collection) (userKey : String) : Except Error Document :=
  match col.docs userKey with
  | some d => .ok d
  | none => .error (.external "mongo: no documents in result")

/-- The driver call `UpdateOne(ctx, bson.M{"user_key": userKey}, bson.M{"$set": update},
options.Update().SetUpsert(true))`; `update` is the `bson.M` as the driver encodes it,
its `expires_at` already a BSON datetime in milliseconds. -/
def Collection.UpdateOne (col : Collection) (userKey : String) (update : Document) :
    Option Error × Collection :=
  let old : Document :=
    match col.docs userKey with
    | some d => d
    | none => { Document.empty with user_key := some userKey }
  (none, ⟨fun k => if k = userKey then some (old.set update) else col.docs k⟩)

/-- Go `MongoTokenStore`. -/
structure MongoTokenStore where
  Collection : Collection

/-- Go `(*MongoTokenStore).Load` (mongo.go:19-52). A field absent from the
document decodes to the zero value of its Go type; the datetime `expires_at` decodes to
the instant `bsonTime` gives. -/
def MongoTokenStore.Load (m : MongoTokenStore) (userKey : String) :
    LoadResult × MongoTokenStore :=
  match m.Collection.FindOne userKey with
  | .error err => ({ tokens := none, creds := none, expiresAt := zeroTime, err := some err }, m)
  | .ok doc =>
    let AccessToken := doc.access_token.getD ""
    let RefreshToken := doc.refresh_token.getD ""
    let ExpiresAt := (doc.expires_at.map bsonTime).getD zeroTime
    let ClientID := doc.client_id.getD ""
    let ClientSecret := doc.client_secret.getD ""
    let tokens : OAuthTokens :=
      { AccessToken := AccessToken, RefreshToken := RefreshToken, ExpiresIn := 0 }
    let creds : Option OAuthCredentials :=
      if ClientID ≠ "" ∧ ClientSecret ≠ "" then
        some { UserKey := "", ClientID := ClientID, ClientSecret := ClientSecret }
      else none
    ({ tokens := some tokens, creds := creds, expiresAt := ExpiresAt, err := none }, m)

/-- Go `(*MongoTokenStore).Save` (mongo.go:54-83). The driver encodes `expiresAt` as
a BSON datetime, which cuts it to whole milliseconds. -/
def MongoTokenStore.Save (m : MongoTokenStore) (userKey : String) (tokens : OAuthTokens)
    (creds : Option OAuthCredentials) (expiresAt : Time) : Option Error × MongoTokenStore :=
  let update : Document :=
    { Document.empty with
      user_key := some userKey
      access_token := some tokens.AccessToken
      refresh_token := some tokens.RefreshToken
      expires_at := some (bsonDateTime expiresAt) }
  let update : Document :=
    match creds with
    | some c => { update with client_id := some c.ClientID, client_secret := some c.ClientSecret }
    | none => update
  let r := m.Collection.UpdateOne userKey update
  (r.1, ⟨r.2⟩)

/-- The document store as a `TokenStore`; its `Load` does not read the clock. -/
def mongoTokenStore : TokenStore MongoTokenStore where
  Load := fun _ m k => m.Load k
  Save := MongoTokenStore.Save

/-! ## cipher.go

`crypto/aes` and `crypto/cipher` are libraries outside the repository: the
`cipher.AEAD` that `cipher.NewGCM` returns is a parameter of the model. -/

/-- Interface `cipher.AEAD`, restricted to how cipher.go calls it: `Seal nonce
plaintext` is `aead.Seal(nil, nonce, plaintext, nil)` and `Open nonce data` is
`aead.Open(nil, nonce, data, nil)`. -/
structure AEAD where
  NonceSize : Nat
  Seal : List Byte → List Byte → List Byte
  Open : List Byte → List Byte → Except Error (List Byte)

/-- Go `AESGCMCipher`. -/
structure AESGCMCipher where
  aead : AEAD

/-- Go `NewAESGCMCipher` (cipher.go:19-35); `gcm key` is the AEAD that
`aes.NewCipher` followed by `cipher.NewGCM` builds from a key. -/
def NewAESGCMCipher (gcm : List Byte → AEAD) (key : List Byte) : Except Error AESGCMCipher :=
  if key.length ≠ 32 then .error .aes256KeyLength
  else .ok { aead := gcm key }

/-- Go `(*AESGCMCipher).Encrypt` (cipher.go:37-45); `randRead` is the outcome of
`rand.Read(nonce)` on the buffer of `NonceSize` bytes: an error, or the buffer
filled with random bytes. -/
def AESGCMCipher.Encrypt (c : AESGCMCipher) (randRead : Except Error (List Byte))
    (plaintext : List Byte) : Except Error (List Byte) :=
  match randRead with
  | .error err => .error err
  | .ok nonce =>
    let ciphertext := c.aead.Seal nonce plaintext
    .ok (nonce ++ ciphertext)

/-- Go `(*AESGCMCipher).Decrypt` (cipher.go:47-57). -/
def AESGCMCipher.Decrypt (c : AESGCMCipher) (ciphertext : List Byte) :
    Except Error (List Byte) :=
  let nonceSize := c.aead.NonceSize
  if ciphertext.length < nonceSize then .error .ciphertextTooShort
  else
    let nonce := ciphertext.take nonceSize
    let data := ciphertext.drop nonceSize
    c.aead.Open nonce data

/-- The error `aead.Open` of GCM returns when the tag does not verify. -/
def authenticationFailed : Error := .external "cipher: message authentication failed"

/-- Contract of `cipher.AEAD`, correctness: opening, under the same nonce, what `Seal`
produced gives the plaintext back. -/
def AEAD.Correct (a : AEAD) : Prop :=
  ∀ nonce plaintext, nonce.length = a.NonceSize →
    a.Open nonce (a.Seal nonce plaintext) = .ok plaintext

/-- The list `ys` is `xs` with the byte at one position replaced by a different byte. -/
def differAtOne (xs ys : List Byte) : Prop :=
  ∃ i b, i < xs.length ∧ xs[i]? ≠ some b ∧ ys = xs.set i b

/-- Contract of `cipher.AEAD`, authenticity against a change of one byte: `Open` fails
with the error `e` when the nonce, or else the sealed text, differs in one byte from a
nonce and sealed text that `Seal` produced. -/
def AEAD.TamperEvident (a : AEAD) (e : Error) : Prop :=
  (∀ nonce nonce' plaintext, nonce.length = a.NonceSize → differAtOne nonce nonce' →
      a.Open nonce' (a.Seal nonce plaintext) = .error e) ∧
  (∀ nonce plaintext data', nonce.length = a.NonceSize →
      differAtOne (a.Seal nonce plaintext) data' → a.Open nonce data' = .error e)

/-- The tag of the sample AEAD: the sum modulo 256 of all nonce and text bytes. -/
def checksum (nonce text : List Byte) : Byte := nonce.sum + text.sum

/-- A sample AEAD with a 12-byte nonce that meets both contracts (it offers no secrecy):
the sealed text is the plaintext followed by the one-byte `checksum`. -/
def sampleAEAD : AEAD where
  NonceSize := 12
  Seal := fun nonce plaintext => plaintext ++ [checksum nonce plaintext]
  Open := fun nonce data =>
    match data.reverse with
    | [] => .error authenticationFailed
    | tag :: rest =>
      if tag = checksum nonce rest.reverse then .ok rest.reverse
      else .error authenticationFailed

/-! ## mongo.go, the encrypted store

`encoding/json` is a library outside the repository: the marshalling of the payload
struct is a parameter of the model. -/

/-- Interface `TokenCipher` (cipher.go:10-13). -/
structure TokenCipher where
  Encrypt : List Byte → Except Error (List Byte)
  Decrypt : List Byte → Except Error (List Byte)

/-- An `AESGCMCipher` as a `TokenCipher`, for the outcome `randRead` of the call of
`rand.Read` that `Encrypt` makes. -/
def AESGCMCipher.asTokenCipher (c : AESGCMCipher) (randRead : Except Error (List Byte)) :
    TokenCipher where
  Encrypt := c.Encrypt randRead
  Decrypt := c.Decrypt

/-- The anonymous struct `payload` of mongo.go:98-101 and 152-155. -/
structure Payload where
  Tokens : OAuthTokens
  Creds : Option OAuthCredentials
deriving DecidableEq, Repr

/-- The calls `json.Marshal(payload)` and `json.Unmarshal(raw, &payload)`. -/
structure JSONCodec where
  Marshal : Payload → Except Error (List Byte)
  Unmarshal : List Byte → Except Error Payload

/-- Go `EncryptedMongoTokenStore`; the `Cipher` is not nil. -/
structure EncryptedMongoTokenStore where
  Collection : Collection
  Cipher : TokenCipher

/-- Go `(*EncryptedMongoTokenStore).Save` (mongo.go:90-130). The driver encodes
`expiresAt` as a BSON datetime, which cuts it to whole milliseconds. -/
def EncryptedMongoTokenStore.Save (json : JSONCodec) (m : EncryptedMongoTokenStore)
    (userKey : String) (tokens : OAuthTokens) (creds : Option OAuthCredentials)
    (expiresAt : Time) : Option Error × EncryptedMongoTokenStore :=
  let payload : Payload := { Tokens := tokens, Creds := creds }
  match json.Marshal payload with
  | .error err => (some err, m)
  | .ok raw =>
    match m.Cipher.Encrypt raw with
    | .error err => (some err, m)
    | .ok enc =>
      let r := m.Collection.UpdateOne userKey
        { Document.empty with
          user_key := some userKey
          data := some enc
          expires_at := some (bsonDateTime expiresAt) }
      (r.1, { m with Collection := r.2 })

/-- Go `(*EncryptedMongoTokenStore).Load` (mongo.go:132-162). A field absent from the
document decodes to the zero value of its Go type. -/
def EncryptedMongoTokenStore.Load (json : JSONCodec) (m : EncryptedMongoTokenStore)
    (userKey : String) : LoadResult × EncryptedMongoTokenStore :=
  match m.Collection.FindOne userKey with
  | .error err => ({ tokens := none, creds := none, expiresAt := zeroTime, err := some err }, m)
  | .ok doc =>
    let Data := doc.data.getD []
    let ExpiresAt := (doc.expires_at.map bsonTime).getD zeroTime
    match m.Cipher.Decrypt Data with
    | .error err => ({ tokens := none, creds := none, expiresAt := zeroTime, err := some err }, m)
    | .ok raw =>
      match json.Unmarshal raw with
      | .error err =>
        ({ tokens := none, creds := none, expiresAt := zeroTime, err := some err }, m)
      | .ok payload =>
        ({ tokens := some payload.Tokens, creds := payload.Creds, expiresAt := ExpiresAt,
           err := none }, m)

/-- The encrypted document store as a `TokenStore`; its `Load` does not read the clock. -/
def encryptedMongoTokenStore (json : JSONCodec) : TokenStore EncryptedMongoTokenStore where
  Load := fun _ m k => m.Load json k
  Save := EncryptedMongoTokenStore.Save json

/-! ## The Token Store contract in the words of the specification

Section 4.2 of the specification: `Save` "upserts the entry keyed by callerKey" and
"overwrites any existing stored credentials only if credentials is non-empty"; `Load`
"fails with NotFound if no live entry exists for callerKey (including the case where an
entry exists but is past expiresAt)". This store is what the implementations are
compared with; it is not taken from the code. -/

/-- The store of the specification: one `StoredEntry` per caller key. -/
structure SpecTokenStore where
  entries : String → Option memoryEntry

/-- `Save` of the specification: absent credentials keep the stored ones. -/
def SpecTokenStore.Save (s : SpecTokenStore) (callerKey : String) (tokens : OAuthTokens)
    (credentials : Option OAuthCredentials) (expiresAt : Time) : SpecTokenStore :=
  let kept : Option OAuthCredentials :=
    match credentials with
    | some c => some c
    | none => (s.entries callerKey).bind (fun e => e.creds)
  ⟨fun k => if k = callerKey then
      some { tokens := tokens, creds := kept, expiresAt := expiresAt }
    else s.entries k⟩

/-- `Load` of the specification at the clock value `now`. -/
def SpecTokenStore.Load (now : Time) (s : SpecTokenStore) (callerKey : String) : LoadResult :=
  match s.entries callerKey with
  | none => { tokens := none, creds := none, expiresAt := zeroTime, err := some .tokenNotFound }
  | some e =>
    if now.After e.expiresAt then
      { tokens := none, creds := none, expiresAt := zeroTime, err := some .tokenNotFound }
    else { tokens := some e.tokens, creds := e.creds, expiresAt := e.expiresAt, err := none }

/-- What a caller observes of a `Load`: the access and refresh tokens, the client
identity (`ClientID`, `ClientSecret`) if credentials came back, and whether it failed. -/
def LoadResult.observable (r : LoadResult) :
    Option (String × String) × Option (String × String) × Bool :=
  (r.tokens.map (fun t => (t.AccessToken, t.RefreshToken)),
   r.creds.map (fun c => (c.ClientID, c.ClientSecret)),
   r.err.isSome)

/-! ## client.go -/

/-- Go constant `apiDomain`. -/
def apiDomain : String := "api.mangadex.org"

/-- Whether some suffix of `s` starts with `sub`. -/
def containsChars : List Char → List Char → Bool
  | [], sub => sub.isEmpty
  | c :: cs, sub => sub.isPrefixOf (c :: cs) || containsChars cs sub

/-- Go `strings.Contains(s, substr)`. -/
def stringsContains (s substr : String) : Bool := containsChars s.data substr.data

/-- Go `http.Header`: a map from a header name to its values. -/
abbrev Header := String → Option (List String)

/-- Go `Header.Set(key, value)` for a key already in canonical form, as
`"Authorization"` is. -/
def Header.Set (h : Header) (key value : String) : Header :=
  fun k => if k = key then some [value] else h k

/-- The part of `*http.Request` the decoration uses: `req.URL.Host` and `req.Header`.
The URL and the header map are non-nil, as `http.NewRequest` builds them. -/
structure Request where
  Host : String
  Header : Header

/-- Go `url.Values` with single values: the pairs that were `Set`. -/
abbrev Form := List (String × String)

/-- Go `Values.Set(key, value)`. -/
def Form.Set (f : Form) (key value : String) : Form :=
  f.filter (fun p => p.1 ≠ key) ++ [(key, value)]

/-- Go `Values.Get(key)`. -/
def Form.Get (f : Form) (key : String) : String :=
  match f.find? (fun p => p.1 = key) with
  | some p => p.2
  | none => ""

/-- What `c.HTTPClient.Do(req)` gives for a POST to `tokenURL`: a transport
error, or a response with its status code and the outcome of decoding its body
with `json.NewDecoder(resp.Body).Decode(&tok)`. -/
inductive HTTPResult where
  | transportError (err : Error)
  | response (StatusCode : Int) (decoded : Except Error OAuthTokens)

/-- The token endpoint as seen through `*http.Client`: from the form posted to the result. -/
abbrev HTTPClient := Form → HTTPResult

/-- Go `OAuthClient`, for a store whose state has type `σ`. The fields `mu`,
`tokens`, `creds` and `expiresAt` are never read or written by the code. -/
structure OAuthClient (σ : Type) where
  HTTPClient : Option HTTPClient
  DefaultCreds : OAuthCredentials
  UserKey : String
  Store : Option (TokenStore σ)

/-- The values `time.Now()` returns at each place a decoration can call it. -/
structure Clock where
  atStoreLoad : Time
  atLoadFromStore : Time
  atCheck : Time
  atStoreTokens : Time

/-- One call of `Store.Save` as issued by the client. -/
structure SaveCall where
  userKey : String
  tokens : OAuthTokens
  creds : Option OAuthCredentials
  expiresAt : Time
deriving DecidableEq, Repr

/-- Everything outside the client that its operations read or change: the state
of the store, the forms posted to the token endpoint so far, and the calls of
`Store.Save` so far. -/
structure World (σ : Type) where
  store : σ
  requests : List Form
  saves : List SaveCall

/-- How a call ends: it returns nil, returns an error, or dereferences nil. -/
inductive Outcome where
  | ok
  | error (err : Error)
  | panic
deriving DecidableEq, Repr

/-- Go `(*OAuthClient).storeTokens` (client.go:75-87); `now` is `time.Now()` at
line 82. `tok.ExpiresIn-30` and the product with `time.Second` are computed in signed
64-bit integers; the error `Save` returns is discarded. -/
def OAuthClient.storeTokens {σ : Type} (c : OAuthClient σ) (now : Time) (tok : OAuthTokens)
    (creds : Option OAuthCredentials) (w : World σ) : Outcome × World σ :=
  match c.Store with
  | some st =>
    match creds with
    | none => (.panic, w)
    | some cr =>
      let expiresAt := now + wrapInt64 (wrapInt64 (tok.ExpiresIn - 30) * Second)
      let r := st.Save w.store cr.UserKey tok (some cr) expiresAt
      (.ok, { store := r.2, requests := w.requests,
              saves := w.saves ++ [⟨cr.UserKey, tok, some cr, expiresAt⟩] })
  | none => (.ok, w)

/-- Go `(*OAuthClient).resolveCreds` (client.go:102-109); the result is never nil. -/
def OAuthClient.resolveCreds {σ : Type} (c : OAuthClient σ)
    (userCreds : Option OAuthCredentials) : OAuthCredentials :=
  match userCreds with
  | some u => if u.ClientID ≠ "" ∧ u.ClientSecret ≠ "" then u else c.DefaultCreds
  | none => c.DefaultCreds

/-- Go `(*OAuthClient).LoadFromStore` (client.go:89-100). -/
def OAuthClient.LoadFromStore {σ : Type} (c : OAuthClient σ) (clk : Clock) (key : String)
    (w : World σ) : LoadResult × World σ :=
  match c.Store with
  | none => ({ tokens := none, creds := none, expiresAt := clk.atLoadFromStore, err := none }, w)
  | some st =>
    let r := st.Load clk.atStoreLoad w.store key
    let w1 : World σ := { store := r.2, requests := w.requests, saves := w.saves }
    match r.1.err with
    | some err =>
      ({ tokens := none, creds := none, expiresAt := clk.atLoadFromStore, err := some err }, w1)
    | none =>
      ({ tokens := r.1.tokens, creds := some (c.resolveCreds r.1.creds),
         expiresAt := r.1.expiresAt, err := none }, w1)

/-- Go `(*OAuthClient).doTokenRequest` (client.go:121-151). `http.NewRequestWithContext`
does not fail for the constant method and URL. -/
def OAuthClient.doTokenRequest {σ : Type} (c : OAuthClient σ) (clk : Clock) (form : Form)
    (creds : Option OAuthCredentials) (w : World σ) : Outcome × World σ :=
  match c.HTTPClient with
  | none => (.panic, w)
  | some httpDo =>
    let w1 : World σ := { store := w.store, requests := w.requests ++ [form], saves := w.saves }
    match httpDo form with
    | .transportError err => (.error err, w1)
    | .response StatusCode decoded =>
      if StatusCode ≠ 200 then (.error .oauthRequestFailed, w1)
      else
        match decoded with
        | .error err => (.error err, w1)
        | .ok tok =>
          c.storeTokens clk.atStoreTokens tok creds w1

/-- Go `(*OAuthClient).refresh` (client.go:111-119). -/
def OAuthClient.refresh {σ : Type} (c : OAuthClient σ) (clk : Clock) (tok : Option OAuthTokens)
    (creds : Option OAuthCredentials) (w : World σ) : Outcome × World σ :=
  let form : Form := Form.Set [] "grant_type" "refresh_token"
  match tok with
  | none => (.panic, w)
  | some t =>
    let form := form.Set "refresh_token" t.RefreshToken
    match creds with
    | none => (.panic, w)
    | some cr =>
      let form := form.Set "client_id" cr.ClientID
      let form := form.Set "client_secret" cr.ClientSecret
      c.doTokenRequest clk form creds w

/-- Go `(*OAuthClient).Login` (client.go:35-46). -/
def OAuthClient.Login {σ : Type} (c : OAuthClient σ) (clk : Clock) (username password : String)
    (creds : Option OAuthCredentials) (w : World σ) : Outcome × World σ :=
  if (match creds with
      | some cr => decide (cr.UserKey = "")
      | none => false) then (.error .missingUserKey, w)
  else
    let form : Form := Form.Set [] "grant_type" "password"
    let form := form.Set "username" username
    let form := form.Set "password" password
    match creds with
    | none => (.panic, w)
    | some cr =>
      let form := form.Set "client_id" cr.ClientID
      let form := form.Set "client_secret" cr.ClientSecret
      c.doTokenRequest clk form creds w

/-- The function returned by Go `(*OAuthClient).ApplyAuth(userKey)` (client.go:48-73),
applied to a request. The request returned is the request after the call. -/
def OAuthClient.ApplyAuth {σ : Type} (c : OAuthClient σ) (userKey : String) (clk : Clock)
    (req : Request) (w : World σ) : Outcome × Request × World σ :=
  if !stringsContains req.Host apiDomain then (.ok, req, w)
  else
    let l := c.LoadFromStore clk userKey w
    let tok := l.1.tokens
    let cred := l.1.creds
    let exp := l.1.expiresAt
    match l.1.err with
    | some err => (.error err, req, l.2)
    | none =>
      let expired := clk.atCheck.After exp
      let r : Outcome × World σ := if expired then c.refresh clk tok cred l.2 else (.ok, l.2)
      match r.1 with
      | .error err => (.error err, req, r.2)
      | .panic => (.panic, req, r.2)
      | .ok =>
        match tok with
        | none => (.panic, req, r.2)
        | some t =>
          if t.AccessToken = "" then (.error .noAccessToken, req, r.2)
          else (.ok, { req with Header := req.Header.Set "Authorization" ("Bearer " ++ t.AccessToken) },
                r.2)

/-- The form `refresh` posts for a refresh token and a client identity: the four
`form.Set` calls of client.go:112-116. -/
def refreshForm (refreshToken clientID clientSecret : String) : Form :=
  (((Form.Set [] "grant_type" "refresh_token").Set "refresh_token" refreshToken).Set
    "client_id" clientID).Set "client_secret" clientSecret

/-- The instant `storeTokens` hands to `Store.Save` (client.go:82) at clock value `now`. -/
def storedExpiry (now : Time) (tok : OAuthTokens) : Time :=
  now + wrapInt64 (wrapInt64 (tok.ExpiresIn - 30) * Second)

/-- The form `Login` posts for a user and a client identity: the five `form.Set`
calls of client.go:39-44. -/
def loginForm (username password clientID clientSecret : String) : Form :=
  ((((Form.Set [] "grant_type" "password").Set "username" username).Set
    "password" password).Set "client_id" clientID).Set "client_secret" clientSecret

/-- The answer of the token endpoint is a failure with error `e`: a transport error `e`,
a status other than 200 (then `e` is "oauth request failed"), or status 200 with a body
whose decoding fails with `e`. -/
def HTTPResult.FailsWith (r : HTTPResult) (e : Error) : Prop :=
  match r with
  | .transportError err => e = err
  | .response StatusCode decoded =>
    (StatusCode ≠ 200 ∧ e = .oauthRequestFailed) ∨ (StatusCode = 200 ∧ decoded = .error e)

/-! ## Concrete scenarios used to evaluate the code -/

/-- A document for caller "u1": tokens old/r0 expiring 100 milliseconds after the
epoch, client identity c/s. -/
def exampleDoc : Document :=
  { user_key := some "u1", access_token := some "old", refresh_token := some "r0",
    expires_at := some 100, client_id := some "c", client_secret := some "s", data := none }

/-- A document store holding `exampleDoc` only. -/
def exampleMongo : MongoTokenStore :=
  ⟨⟨fun k => if k = "u1" then some exampleDoc else none⟩⟩

/-- A token endpoint answering a refresh grant with status 200 and the pair new/r1. -/
def exampleEndpoint : HTTPClient := fun form =>
  if form.Get "grant_type" = "refresh_token" then .response 200 (.ok ⟨"new", "r1", 3600⟩)
  else .response 400 (.error (.external "unexpected grant"))

/-- A client on the document store with default credentials dc/ds. -/
def exampleClient : OAuthClient MongoTokenStore :=
  { HTTPClient := some exampleEndpoint, DefaultCreds := ⟨"default", "dc", "ds"⟩,
    UserKey := "", Store := some mongoTokenStore }

/-- A client without a Token Store. -/
def exampleNoStoreClient : OAuthClient Unit :=
  { HTTPClient := some exampleEndpoint, DefaultCreds := ⟨"default", "dc", "ds"⟩,
    UserKey := "", Store := none }

/-- A client on the in-memory store. -/
def exampleMemClient : OAuthClient InMemoryTokenStore :=
  { HTTPClient := some exampleEndpoint, DefaultCreds := ⟨"default", "dc", "ds"⟩,
    UserKey := "", Store := some inMemoryTokenStore }

/-- An in-memory store after `Save("u1", {a1, r1, 60}, {u1, c, s}, 100)`. -/
def exampleMem : InMemoryTokenStore :=
  (NewInMemoryTokenStore.Save "u1" ⟨"a1", "r1", 60⟩ (some ⟨"u1", "c", "s"⟩) 100).2

/-- A clock that shows `t` at every reading. -/
def Clock.const (t : Time) : Clock := ⟨t, t, t, t⟩

/-- A request to the host given, carrying one header `Accept`. -/
def exampleRequest (host : String) : Request :=
  ⟨host, fun k => if k = "Accept" then some ["application/json"] else none⟩

/-- A document for caller "u2" without client identity: tokens old2/r2 expiring 100
milliseconds after the epoch. -/
def exampleDocNoCreds : Document :=
  { user_key := some "u2", access_token := some "old2", refresh_token := some "r2",
    expires_at := some 100, client_id := none, client_secret := none, data := none }

/-- A document store holding `exampleDocNoCreds` only. -/
def exampleMongoNoCreds : MongoTokenStore :=
  ⟨⟨fun k => if k = "u2" then some exampleDocNoCreds else none⟩⟩

/-- A token endpoint answering every form with status 201 and a decodable pair. -/
def exampleEndpoint201 : HTTPClient := fun _ => .response 201 (.ok ⟨"new", "r1", 3600⟩)

/-- A token endpoint answering every form with status 200 and the pair new/r1. -/
def exampleEndpointOk : HTTPClient := fun _ => .response 200 (.ok ⟨"new", "r1", 3600⟩)

/-- A token endpoint answering every form with status 200 and a pair whose access token
is empty (the body `{"refresh_token":"r1","expires_in":3600}`). -/
def exampleEmptyTokenEndpoint : HTTPClient := fun _ => .response 200 (.ok ⟨"", "r1", 3600⟩)

/-- A token endpoint answering every form with status 200 and the TTL hint 10000000000. -/
def exampleLongLivedEndpoint : HTTPClient :=
  fun _ => .response 200 (.ok ⟨"new", "r1", 10000000000⟩)

/-- A Token Store whose `Load` and `Save` always return an error. -/
def failingStore : TokenStore Unit where
  Load := fun _ s _ =>
    ({ tokens := none, creds := none, expiresAt := zeroTime,
       err := some (.external "store unavailable") }, s)
  Save := fun s _ _ _ _ => (some (.external "store unavailable"), s)

/-- The client of `exampleClient` with another HTTP client. -/
def exampleClientWith (h : HTTPClient) : OAuthClient MongoTokenStore :=
  { HTTPClient := some h, DefaultCreds := ⟨"default", "dc", "ds"⟩,
    UserKey := "", Store := some mongoTokenStore }

/-- A client on the failing store. -/
def exampleFailingStoreClient : OAuthClient Unit :=
  { HTTPClient := some exampleEndpointOk, DefaultCreds := ⟨"default", "dc", "ds"⟩,
    UserKey := "", Store := some failingStore }

/-- Sample codec: a string as its length followed by one byte per character. -/
def sampleEncodeString (str : String) : List Byte :=
  Fin.ofNat str.length :: str.data.map (fun ch => Fin.ofNat ch.toNat)

/-- Sample codec: read back a string written by `sampleEncodeString`. -/
def sampleDecodeString : List Byte → Option (String × List Byte)
  | [] => none
  | n :: rest =>
    if rest.length < n.val then none
    else some (String.mk ((rest.take n.val).map (fun b => Char.ofNat b.val)), rest.drop n.val)

/-- Sample codec: a 64-bit integer as eight bytes, lowest first. -/
def sampleEncodeInt (x : Int) : List Byte :=
  (List.range 8).map (fun i => Fin.ofNat ((x % 2 ^ 64).toNat / 256 ^ i))

/-- Sample codec: read back an integer written by `sampleEncodeInt`. -/
def sampleDecodeInt (bs : List Byte) : Option (Int × List Byte) :=
  if bs.length < 8 then none
  else
    some (wrapInt64 (((bs.take 8).foldr (fun b acc => b.val + 256 * acc) 0 : Nat) : Int),
      bs.drop 8)

/-- A sample codec standing in for `encoding/json` on the payload struct (strings of at
most 255 one-byte characters survive it). -/
def sampleJSON : JSONCodec where
  Marshal := fun p =>
    .ok (sampleEncodeString p.Tokens.AccessToken ++ sampleEncodeString p.Tokens.RefreshToken ++
      sampleEncodeInt p.Tokens.ExpiresIn ++
      (match p.Creds with
       | none => [0]
       | some c => 1 :: (sampleEncodeString c.UserKey ++ sampleEncodeString c.ClientID ++
          sampleEncodeString c.ClientSecret)))
  Unmarshal := fun raw =>
    let parsed : Option Payload := do
      let (access, r1) ← sampleDecodeString raw
      let (refresh, r2) ← sampleDecodeString r1
      let (expiresIn, r3) ← sampleDecodeInt r2
      match r3 with
      | [] => none
      | tag :: r4 =>
        if tag = 0 then
          some { Tokens := ⟨access, refresh, expiresIn⟩, Creds := none }
        else do
          let (userKey, r5) ← sampleDecodeString r4
          let (clientID, r6) ← sampleDecodeString r5
          let (clientSecret, _) ← sampleDecodeString r6
          some { Tokens := ⟨access, refresh, expiresIn⟩,
                 Creds := some ⟨userKey, clientID, clientSecret⟩ }
    match parsed with
    | some p => .ok p
    | none => .error (.external "unexpected end of JSON input")

/-- The cipher over `sampleAEAD` whose `Encrypt` draws the nonce of 12 zero bytes. -/
def sampleCipher : TokenCipher :=
  (AESGCMCipher.mk sampleAEAD).asTokenCipher (.ok (List.replicate 12 0))

/-- An encrypted document store without documents, on `sampleCipher`. -/
def exampleEncryptedMongo : EncryptedMongoTokenStore :=
  { Collection := Collection.empty, Cipher := sampleCipher }

end Auth

/-! ## client_cache.go (package `mangadex`)

`encoding/json` and `crypto/sha256` are libraries outside the repository:
`json.Marshal(args)` and the SHA-256 digest are parameters of the model. An error of
`json.Marshal` is represented by its message. -/

namespace Mangadex

/-- The digit of `hex.EncodeToString` for a value below 16 (the table "0123456789abcdef"). -/
def hexDigit (n : Nat) : Char := "0123456789abcdef".data.getD n '0'

/-- Go `hex.EncodeToString`: two lowercase hexadecimal digits per byte, high digit first. -/
def hexEncodeToString (bs : List (Fin 256)) : String :=
  String.mk (bs.flatMap (fun b => [hexDigit (b.val / 16), hexDigit (b.val % 16)]))

/-- Go `generateKey` (client_cache.go:24-37) for the argument list `args`;
`jsonMarshal args` is `json.Marshal(args)` and `sha256 b` is the digest that
`hasher.Write(b)` followed by `hasher.Sum(nil)` returns. -/
def generateKey {α : Type} (jsonMarshal : α → Except String (List (Fin 256)))
    (sha256 : List (Fin 256) → List (Fin 256)) (method : String) (args : α) : String :=
  match jsonMarshal args with
  | .error msg => method ++ ":json_marshal_error:" ++ msg
  | .ok b =>
    let hash := hexEncodeToString (sha256 b)
    method ++ ":" ++ hash

/-- The arguments of a cached call, as far as the sample marshaller looks at them: a
chapter id and the number of request-editor functions passed. -/
structure SampleArgs where
  chapterId : String
  reqEditors : Nat

/-- A sample `json.Marshal`: it fails on a non-empty list of request-editor functions
with the message of `json.UnsupportedTypeError`, and writes the characters of the
chapter id otherwise. -/
def sampleMarshal (args : SampleArgs) : Except String (List (Fin 256)) :=
  if args.reqEditors = 0 then .ok (args.chapterId.data.map (fun ch => Fin.ofNat ch.toNat))
  else .error "json: unsupported type: mangadex.RequestEditorFn"

/-- A sample digest of 32 bytes (not SHA-256): the input cut or padded to 32 bytes. -/
def sampleDigest (b : List (Fin 256)) : List (Fin 256) := (b ++ List.replicate 32 0).take 32

end Mangadex

namespace Auth

/-! # Theorems -/

/-! ## The in-memory store -/

/-- Looking up the key just written by `Save` finds the entry written. -/
theorem InMemoryTokenStore.store_Save_self (m : InMemoryTokenStore) (key : String)
    (tokens : OAuthTokens) (creds : Option OAuthCredentials) (exp : Time) :
    (m.Save key tokens creds exp).2.store key
      = some { tokens := tokens, creds := creds, expiresAt := exp } := by
  cases creds <;> simp [InMemoryTokenStore.Save, InMemoryTokenStore.insert]

/-- `Save` returns a nil error. -/
theorem InMemoryTokenStore.Save_err (m : InMemoryTokenStore) (key : String)
    (tokens : OAuthTokens) (creds : Option OAuthCredentials) (exp : Time) :
    (m.Save key tokens creds exp).1 = none := rfl

/-- `Load` of a key whose entry is known, in terms of the clock. -/
theorem InMemoryTokenStore.Load_of_entry (now : Time) (m : InMemoryTokenStore) (key : String)
    (e : memoryEntry) (h : m.store key = some e) :
    (m.Load now key).1 =
      if e.expiresAt < now then
        { tokens := none, creds := none, expiresAt := zeroTime, err := some .tokenExpired }
      else { tokens := some e.tokens, creds := e.creds, expiresAt := e.expiresAt, err := none } := by
  unfold InMemoryTokenStore.Load
  rw [h]
  by_cases hlt : e.expiresAt < now
  · simp [Time.After, hlt]
  · cases hc : e.creds <;> simp [Time.After, hlt, hc]

/-- C1 (the code departs from the claim): after `Save(key, tok1, creds, exp1)` and then
`Save(key, tok2, nil, exp2)` on any in-memory store, `Load(key)` at any clock value returns
nil credentials: while the entry is live it returns `tok2` with nil credentials and `exp2`,
afterwards the "token expired" error. The credentials of the first `Save` are erased. -/
theorem InMemoryTokenStore.save_nil_creds_erases (m : InMemoryTokenStore) (key : String)
    (tok1 tok2 : OAuthTokens) (creds : OAuthCredentials) (exp1 exp2 now : Time) :
    (((m.Save key tok1 (some creds) exp1).2.Save key tok2 none exp2).2.Load now key).1 =
      if exp2 < now then
        { tokens := none, creds := none, expiresAt := zeroTime, err := some .tokenExpired }
      else { tokens := some tok2, creds := none, expiresAt := exp2, err := none } := by
  rw [InMemoryTokenStore.Load_of_entry now _ key _
    (InMemoryTokenStore.store_Save_self _ key tok2 none exp2)]

/-- C7: on a fresh in-memory store, `Save(key, tokens, creds, exp)` with non-nil `creds`
returns no error, and a following `Load(key)` at a clock value `now` not after `exp`
returns exactly `(tokens, creds, exp, nil)`. -/
theorem InMemoryTokenStore.save_load_roundtrip (key : String) (tokens : OAuthTokens)
    (creds : OAuthCredentials) (exp now : Time) (hlive : now ≤ exp) :
    (NewInMemoryTokenStore.Save key tokens (some creds) exp).1 = none ∧
    ((NewInMemoryTokenStore.Save key tokens (some creds) exp).2.Load now key).1 =
      { tokens := some tokens, creds := some creds, expiresAt := exp, err := none } := by
  refine ⟨rfl, ?_⟩
  rw [InMemoryTokenStore.Load_of_entry now _ key _
    (InMemoryTokenStore.store_Save_self _ key tokens (some creds) exp)]
  simp [not_lt.mpr hlive]

/-- C7, the scenario of the specification: key "u1", tokens {a1, r1, 60}, credentials
{c, s}, expiry 30 units after the clock value 1000 at which `Load` runs. -/
theorem InMemoryTokenStore.save_load_roundtrip_witness :
    (1000 : Time) ≤ 1000 + 30 ∧
    (NewInMemoryTokenStore.Save "u1" ⟨"a1", "r1", 60⟩ (some ⟨"u1", "c", "s"⟩) (1000 + 30)).1
      = none ∧
    ((NewInMemoryTokenStore.Save "u1" ⟨"a1", "r1", 60⟩ (some ⟨"u1", "c", "s"⟩)
        (1000 + 30)).2.Load 1000 "u1").1 =
      { tokens := some ⟨"a1", "r1", 60⟩, creds := some ⟨"u1", "c", "s"⟩,
        expiresAt := 1000 + 30, err := none } :=
  ⟨by decide,
    InMemoryTokenStore.save_load_roundtrip "u1" ⟨"a1", "r1", 60⟩ ⟨"u1", "c", "s"⟩ (1000 + 30)
      1000 (by decide)⟩

/-- C8, the claim as stated fails: the error `Load` returns for an entry saved with
expiry 60 and read at clock value 61 is not the error `Load` returns for a key that was
never saved; the two have different messages. -/
theorem InMemoryTokenStore.expired_error_differs :
    ((NewInMemoryTokenStore.Save "k" ⟨"a", "r", 60⟩ none 60).2.Load 61 "k").1.err
        = some .tokenExpired ∧
    (NewInMemoryTokenStore.Load 61 "k").1.err = some .tokenNotFound ∧
    ((NewInMemoryTokenStore.Save "k" ⟨"a", "r", 60⟩ none 60).2.Load 61 "k").1.err
        ≠ (NewInMemoryTokenStore.Load 61 "k").1.err ∧
    Error.tokenExpired.msg ≠ Error.tokenNotFound.msg := by
  decide

/-- C8 as amended: after `Save(key, tok, nil, t)` on any in-memory store, `Load(key)` at
every clock value not after `t` succeeds with `(tok, nil, t)`, and at every clock value
after `t` fails with the error "token expired", returning no tokens and no credentials;
that error is a different one from "token not found", which a key of the fresh store
gets. -/
theorem InMemoryTokenStore.expiry_monotone (m : InMemoryTokenStore) (key : String)
    (tok : OAuthTokens) (t now : Time) :
    (now ≤ t → ((m.Save key tok none t).2.Load now key).1 =
        { tokens := some tok, creds := none, expiresAt := t, err := none }) ∧
    (t < now → ((m.Save key tok none t).2.Load now key).1 =
        { tokens := none, creds := none, expiresAt := zeroTime, err := some .tokenExpired }) ∧
    (NewInMemoryTokenStore.Load now key).1.err = some .tokenNotFound ∧
    Error.tokenExpired ≠ Error.tokenNotFound := by
  have hl := InMemoryTokenStore.Load_of_entry now _ key _
    (InMemoryTokenStore.store_Save_self m key tok none t)
  refine ⟨fun h => ?_, fun h => ?_, rfl, by decide⟩
  · rw [hl]; simp [not_lt.mpr h]
  · rw [hl]; simp [h]

/-- C8 as amended, at a concrete store: expiry 60, read at 60 and read at 61. -/
theorem InMemoryTokenStore.expiry_monotone_witness :
    ((NewInMemoryTokenStore.Save "k" ⟨"a", "r", 60⟩ none 60).2.Load 60 "k").1 =
        { tokens := some ⟨"a", "r", 60⟩, creds := none, expiresAt := 60, err := none } ∧
    ((NewInMemoryTokenStore.Save "k" ⟨"a", "r", 60⟩ none 60).2.Load 61 "k").1 =
        { tokens := none, creds := none, expiresAt := zeroTime, err := some .tokenExpired } :=
  ⟨(InMemoryTokenStore.expiry_monotone NewInMemoryTokenStore "k" ⟨"a", "r", 60⟩ 60 60).1
      (by decide),
    (InMemoryTokenStore.expiry_monotone NewInMemoryTokenStore "k" ⟨"a", "r", 60⟩ 60 61).2.1
      (by decide)⟩

/-! ## The request decoration -/

/-- The form of a refresh, written out. -/
theorem refreshForm_eq (refreshToken clientID clientSecret : String) :
    refreshForm refreshToken clientID clientSecret =
      [("grant_type", "refresh_token"), ("refresh_token", refreshToken),
       ("client_id", clientID), ("client_secret", clientSecret)] := by
  simp [refreshForm, Form.Set]

/-- `storeTokens` with a store and non-nil credentials: one `Save` under the `UserKey`
of the credentials, with the expiry computed from the clock. -/
theorem OAuthClient.storeTokens_some {σ : Type} (c : OAuthClient σ) (st : TokenStore σ)
    (now : Time) (tok : OAuthTokens) (cr : OAuthCredentials) (w : World σ)
    (hstore : c.Store = some st) :
    c.storeTokens now tok (some cr) w =
      (.ok, { store := (st.Save w.store cr.UserKey tok (some cr) (storedExpiry now tok)).2,
              requests := w.requests,
              saves := w.saves ++ [⟨cr.UserKey, tok, some cr, storedExpiry now tok⟩] }) := by
  simp [OAuthClient.storeTokens, hstore, storedExpiry]

/-- `storeTokens` never touches the log of token requests. -/
theorem OAuthClient.storeTokens_requests {σ : Type} (c : OAuthClient σ) (now : Time)
    (tok : OAuthTokens) (creds : Option OAuthCredentials) (w : World σ) :
    (c.storeTokens now tok creds w).2.requests = w.requests := by
  unfold OAuthClient.storeTokens
  cases c.Store <;> cases creds <;> rfl

/-- With an HTTP client, `doTokenRequest` posts exactly one form, whatever the answer. -/
theorem OAuthClient.doTokenRequest_requests {σ : Type} (c : OAuthClient σ) (h : Auth.HTTPClient)
    (clk : Clock) (form : Form) (creds : Option OAuthCredentials) (w : World σ)
    (hhttp : c.HTTPClient = some h) :
    (c.doTokenRequest clk form creds w).2.requests = w.requests ++ [form] := by
  unfold OAuthClient.doTokenRequest
  rw [hhttp]
  cases hr : h form with
  | transportError e => simp [hr]
  | response code decoded =>
    by_cases hc : code = 200
    · cases decoded with
      | error e => simp [hr, hc]
      | ok tok => simp [hr, hc, OAuthClient.storeTokens_requests]
    · simp [hr, hc]

/-- `doTokenRequest` on a status 200 answer with a decodable body. -/
theorem OAuthClient.doTokenRequest_ok {σ : Type} (c : OAuthClient σ) (h : Auth.HTTPClient)
    (clk : Clock) (form : Form) (creds : Option OAuthCredentials) (w : World σ)
    (newTok : OAuthTokens) (hhttp : c.HTTPClient = some h)
    (hresp : h form = .response 200 (.ok newTok)) :
    c.doTokenRequest clk form creds w =
      c.storeTokens clk.atStoreTokens newTok creds
        { store := w.store, requests := w.requests ++ [form], saves := w.saves } := by
  simp [OAuthClient.doTokenRequest, hhttp, hresp]

/-- `refresh` on non-nil arguments is `doTokenRequest` on the refresh form. -/
theorem OAuthClient.refresh_some {σ : Type} (c : OAuthClient σ) (clk : Clock)
    (tok : OAuthTokens) (cr : OAuthCredentials) (w : World σ) :
    c.refresh clk (some tok) (some cr) w =
      c.doTokenRequest clk (refreshForm tok.RefreshToken cr.ClientID cr.ClientSecret)
        (some cr) w := rfl

/-- `LoadFromStore` when the store's `Load` returns no error. -/
theorem OAuthClient.LoadFromStore_ok {σ : Type} (c : OAuthClient σ) (st : TokenStore σ)
    (clk : Clock) (key : String) (w : World σ) (r : LoadResult) (s1 : σ)
    (hstore : c.Store = some st) (hload : st.Load clk.atStoreLoad w.store key = (r, s1))
    (herr : r.err = none) :
    c.LoadFromStore clk key w =
      ({ tokens := r.tokens, creds := some (c.resolveCreds r.creds),
         expiresAt := r.expiresAt, err := none },
       { store := s1, requests := w.requests, saves := w.saves }) := by
  simp [OAuthClient.LoadFromStore, hstore, hload, herr]

/-- The decoration on a request whose host does not contain `apiDomain`. -/
theorem OAuthClient.ApplyAuth_other_host {σ : Type} (c : OAuthClient σ) (userKey : String)
    (clk : Clock) (req : Request) (w : World σ)
    (hhost : stringsContains req.Host apiDomain = false) :
    c.ApplyAuth userKey clk req w = (.ok, req, w) := by
  simp [OAuthClient.ApplyAuth, hhost]

/-- The decoration when the loaded entry is not past its expiry at the check: no
refresh, the loaded access token decides the result. -/
theorem OAuthClient.ApplyAuth_live {σ : Type} (c : OAuthClient σ) (st : TokenStore σ)
    (userKey : String) (clk : Clock) (req : Request) (w : World σ) (r : LoadResult) (s1 : σ)
    (tok : OAuthTokens)
    (hstore : c.Store = some st) (hhost : stringsContains req.Host apiDomain = true)
    (hload : st.Load clk.atStoreLoad w.store userKey = (r, s1))
    (herr : r.err = none) (htok : r.tokens = some tok) (hlive : clk.atCheck ≤ r.expiresAt) :
    c.ApplyAuth userKey clk req w =
      if tok.AccessToken = "" then
        (.error .noAccessToken, req, { store := s1, requests := w.requests, saves := w.saves })
      else
        (.ok, { req with Header := req.Header.Set "Authorization" ("Bearer " ++ tok.AccessToken) },
          { store := s1, requests := w.requests, saves := w.saves }) := by
  unfold OAuthClient.ApplyAuth
  rw [OAuthClient.LoadFromStore_ok c st clk userKey w r s1 hstore hload herr]
  simp [hhost, htok, Time.After, not_lt.mpr hlive]

/-- The decoration when the loaded entry is past its expiry at the check and the token
endpoint answers the refresh with status 200 and a decodable pair: the new pair goes to
the store under the `UserKey` of the resolved credentials, and the access token that was
loaded before the refresh decides the result. -/
theorem OAuthClient.ApplyAuth_refreshed {σ : Type} (c : OAuthClient σ) (st : TokenStore σ)
    (h : Auth.HTTPClient) (userKey : String) (clk : Clock) (req : Request) (w : World σ)
    (r : LoadResult) (s1 : σ) (tok newTok : OAuthTokens)
    (hstore : c.Store = some st) (hhttp : c.HTTPClient = some h)
    (hhost : stringsContains req.Host apiDomain = true)
    (hload : st.Load clk.atStoreLoad w.store userKey = (r, s1))
    (herr : r.err = none) (htok : r.tokens = some tok) (hexp : r.expiresAt < clk.atCheck)
    (hresp : h (refreshForm tok.RefreshToken (c.resolveCreds r.creds).ClientID
        (c.resolveCreds r.creds).ClientSecret) = .response 200 (.ok newTok)) :
    c.ApplyAuth userKey clk req w =
      if tok.AccessToken = "" then
        (.error .noAccessToken, req,
          { store := (st.Save s1 (c.resolveCreds r.creds).UserKey newTok
                (some (c.resolveCreds r.creds)) (storedExpiry clk.atStoreTokens newTok)).2,
            requests := w.requests ++ [refreshForm tok.RefreshToken
                (c.resolveCreds r.creds).ClientID (c.resolveCreds r.creds).ClientSecret],
            saves := w.saves ++ [⟨(c.resolveCreds r.creds).UserKey, newTok,
                some (c.resolveCreds r.creds), storedExpiry clk.atStoreTokens newTok⟩] })
      else
        (.ok, { req with Header := req.Header.Set "Authorization" ("Bearer " ++ tok.AccessToken) },
          { store := (st.Save s1 (c.resolveCreds r.creds).UserKey newTok
                (some (c.resolveCreds r.creds)) (storedExpiry clk.atStoreTokens newTok)).2,
            requests := w.requests ++ [refreshForm tok.RefreshToken
                (c.resolveCreds r.creds).ClientID (c.resolveCreds r.creds).ClientSecret],
            saves := w.saves ++ [⟨(c.resolveCreds r.creds).UserKey, newTok,
                some (c.resolveCreds r.creds), storedExpiry clk.atStoreTokens newTok⟩] }) := by
  unfold OAuthClient.ApplyAuth
  rw [OAuthClient.LoadFromStore_ok c st clk userKey w r s1 hstore hload herr]
  simp only [hhost, htok, Time.After, hexp, decide_True, Bool.not_true, Bool.false_eq_true,
    if_false, if_true]
  rw [OAuthClient.refresh_some,
    OAuthClient.doTokenRequest_ok c h clk _ _ _ newTok hhttp hresp,
    OAuthClient.storeTokens_some c st _ _ _ _ hstore]

/-- `containsChars s sub` holds exactly when `sub` is a contiguous part of `s`. -/
theorem containsChars_iff_isInfix (s sub : List Char) :
    containsChars s sub = true ↔ sub <:+: s := by
  induction s with
  | nil => cases sub <;> simp [containsChars]
  | cons c cs ih =>
    simp only [containsChars, Bool.or_eq_true, ih, List.infix_cons_iff,
      List.isPrefixOf_iff_prefix]

/-- The world after a decoration that found a live store entry past its expiry is the
world after the refresh, however the refresh ends. -/
theorem OAuthClient.ApplyAuth_expired_world {σ : Type} (c : OAuthClient σ) (st : TokenStore σ)
    (userKey : String) (clk : Clock) (req : Request) (w : World σ) (r : LoadResult) (s1 : σ)
    (tok : OAuthTokens)
    (hstore : c.Store = some st) (hhost : stringsContains req.Host apiDomain = true)
    (hload : st.Load clk.atStoreLoad w.store userKey = (r, s1))
    (herr : r.err = none) (htok : r.tokens = some tok) (hexp : r.expiresAt < clk.atCheck) :
    (c.ApplyAuth userKey clk req w).2.2 =
      (c.refresh clk (some tok) (some (c.resolveCreds r.creds))
        { store := s1, requests := w.requests, saves := w.saves }).2 := by
  unfold OAuthClient.ApplyAuth
  rw [OAuthClient.LoadFromStore_ok c st clk userKey w r s1 hstore hload herr]
  simp only [hhost, htok, Time.After, hexp, decide_True, Bool.not_true, Bool.false_eq_true,
    if_false, if_true]
  split
  · rfl
  · rfl
  · split <;> rfl

/-- C2 (the code departs from the claim): the document store holds for "u1" the pair
old/r0 with expiry 100 ms, the clock shows 200 ms, and the token endpoint answers the refresh
with status 200 and the pair new/r1. The decoration of a request to api.mangadex.org
posts the refresh, hands the new pair to the store, returns success, and sets
`Authorization` to "Bearer old": the access token loaded before the refresh, not the new
one. -/
theorem OAuthClient.ApplyAuth_refresh_stale_header :
    (exampleClient.ApplyAuth "u1" (Clock.const (200 * Millisecond)) (exampleRequest "api.mangadex.org")
        ⟨exampleMongo, [], []⟩).1 = .ok ∧
    (exampleClient.ApplyAuth "u1" (Clock.const (200 * Millisecond)) (exampleRequest "api.mangadex.org")
        ⟨exampleMongo, [], []⟩).2.2.requests = [refreshForm "r0" "c" "s"] ∧
    ((exampleClient.ApplyAuth "u1" (Clock.const (200 * Millisecond)) (exampleRequest "api.mangadex.org")
        ⟨exampleMongo, [], []⟩).2.2.saves.map (fun sv => sv.tokens.AccessToken)) = ["new"] ∧
    (exampleClient.ApplyAuth "u1" (Clock.const (200 * Millisecond)) (exampleRequest "api.mangadex.org")
        ⟨exampleMongo, [], []⟩).2.1.Header "Authorization" = some ["Bearer old"] ∧
    (exampleClient.ApplyAuth "u1" (Clock.const (200 * Millisecond)) (exampleRequest "api.mangadex.org")
        ⟨exampleMongo, [], []⟩).2.1.Header "Authorization" ≠ some ["Bearer new"] := by
  decide

/-- C3 (the code departs from the claim): in the scenario of the document store holding
old/r0 for "u1" with expiry 100 ms and client identity c/s, the clock at 200 ms, the decoration returned by `ApplyAuth("u1")`
refreshes successfully and calls `Save` once, under the key "" (the `UserKey` of the
credentials the store's `Load` returned), with the pair new/r1. Afterwards `Load("u1")`
still returns old/r0 with expiry 100 ms, and the new pair sits under the key "". -/
theorem OAuthClient.ApplyAuth_refresh_saves_under_creds_key :
    (exampleClient.ApplyAuth "u1" (Clock.const (200 * Millisecond)) (exampleRequest "api.mangadex.org")
        ⟨exampleMongo, [], []⟩).2.2.saves =
      [⟨"", ⟨"new", "r1", 3600⟩, some ⟨"", "c", "s"⟩, 200 * Millisecond + 3570 * Second⟩] ∧
    ((exampleClient.ApplyAuth "u1" (Clock.const (200 * Millisecond)) (exampleRequest "api.mangadex.org")
        ⟨exampleMongo, [], []⟩).2.2.store.Load "u1").1 =
      { tokens := some ⟨"old", "r0", 0⟩, creds := some ⟨"", "c", "s"⟩, expiresAt := 100 * Millisecond,
        err := none } ∧
    ((exampleClient.ApplyAuth "u1" (Clock.const (200 * Millisecond)) (exampleRequest "api.mangadex.org")
        ⟨exampleMongo, [], []⟩).2.2.store.Load "").1 =
      { tokens := some ⟨"new", "r1", 0⟩, creds := some ⟨"", "c", "s"⟩,
        expiresAt := 200 * Millisecond + 3570 * Second, err := none } := by
  decide

/-- C4, the claim as stated fails: the host api.mangadex.org.evil.example is not the API
host but contains its name. Without a Token Store the decoration of a request to it
dereferences the nil token pair instead of returning; with the document store and a live
entry it sets `Authorization: Bearer old` on that request, which had no such header. -/
theorem OAuthClient.ApplyAuth_substring_host :
    "api.mangadex.org.evil.example" ≠ apiDomain ∧
    (exampleNoStoreClient.ApplyAuth "u1" (Clock.const 50)
        (exampleRequest "api.mangadex.org.evil.example") ⟨(), [], []⟩).1 = .panic ∧
    (exampleRequest "api.mangadex.org.evil.example").Header "Authorization" = none ∧
    (exampleClient.ApplyAuth "u1" (Clock.const 50)
        (exampleRequest "api.mangadex.org.evil.example") ⟨exampleMongo, [], []⟩).2.1.Header
      "Authorization" = some ["Bearer old"] := by
  decide

/-- C4 as amended: for every client (with or without a Token Store), caller key, clock
and world, the decoration of a request whose host does not contain the text of
`apiDomain` as a contiguous part returns no error and leaves the request (its host and
every header) and the world unchanged. -/
theorem OAuthClient.ApplyAuth_host_scoping {σ : Type} (c : OAuthClient σ) (userKey : String)
    (clk : Clock) (req : Request) (w : World σ)
    (hhost : ¬ apiDomain.data <:+: req.Host.data) :
    (c.ApplyAuth userKey clk req w).1 = .ok ∧
    (c.ApplyAuth userKey clk req w).2.1 = req ∧
    (∀ k, (c.ApplyAuth userKey clk req w).2.1.Header k = req.Header k) ∧
    (c.ApplyAuth userKey clk req w).2.2 = w := by
  have hc : stringsContains req.Host apiDomain = false := by
    rw [← Bool.not_eq_true]
    exact fun h => hhost ((containsChars_iff_isInfix _ _).mp h)
  rw [OAuthClient.ApplyAuth_other_host c userKey clk req w hc]
  exact ⟨rfl, rfl, fun _ => rfl, rfl⟩

/-- C4 as amended, at a client without a Token Store and the host example.com. -/
theorem OAuthClient.ApplyAuth_host_scoping_witness :
    (exampleNoStoreClient.ApplyAuth "u1" (Clock.const 50) (exampleRequest "example.com")
        ⟨(), [], []⟩).1 = .ok ∧
    (exampleNoStoreClient.ApplyAuth "u1" (Clock.const 50) (exampleRequest "example.com")
        ⟨(), [], []⟩).2.1 = exampleRequest "example.com" ∧
    (∀ k, (exampleNoStoreClient.ApplyAuth "u1" (Clock.const 50) (exampleRequest "example.com")
        ⟨(), [], []⟩).2.1.Header k = (exampleRequest "example.com").Header k) ∧
    (exampleNoStoreClient.ApplyAuth "u1" (Clock.const 50) (exampleRequest "example.com")
        ⟨(), [], []⟩).2.2 = ⟨(), [], []⟩ :=
  OAuthClient.ApplyAuth_host_scoping exampleNoStoreClient "u1" (Clock.const 50)
    (exampleRequest "example.com") ⟨(), [], []⟩
    (by rw [← containsChars_iff_isInfix]; decide)

/-- C9: for a client with a Token Store and a request whose host contains `apiDomain`
(the API host among them), if the store's `Load` for the caller key returns without error
a token pair with non-empty access token `a` and an expiry not before the clock value of
the check, then the decoration returns success, sets `Authorization` to exactly
"Bearer " followed by `a`, leaves every other header and the host unchanged, posts
nothing to the token endpoint, calls `Save` not at all, and leaves the store in the state
in which `Load` left it. -/
theorem OAuthClient.ApplyAuth_happy_path {σ : Type} (c : OAuthClient σ) (st : TokenStore σ)
    (userKey : String) (clk : Clock) (req : Request) (w : World σ) (r : LoadResult) (s1 : σ)
    (tok : OAuthTokens)
    (hstore : c.Store = some st) (hhost : stringsContains req.Host apiDomain = true)
    (hload : st.Load clk.atStoreLoad w.store userKey = (r, s1))
    (herr : r.err = none) (htok : r.tokens = some tok) (hlive : clk.atCheck ≤ r.expiresAt)
    (ha : tok.AccessToken ≠ "") :
    (c.ApplyAuth userKey clk req w).1 = .ok ∧
    (c.ApplyAuth userKey clk req w).2.1.Header "Authorization"
      = some ["Bearer " ++ tok.AccessToken] ∧
    (∀ k, k ≠ "Authorization" → (c.ApplyAuth userKey clk req w).2.1.Header k = req.Header k) ∧
    (c.ApplyAuth userKey clk req w).2.1.Host = req.Host ∧
    (c.ApplyAuth userKey clk req w).2.2.requests = w.requests ∧
    (c.ApplyAuth userKey clk req w).2.2.saves = w.saves ∧
    (c.ApplyAuth userKey clk req w).2.2.store = s1 := by
  rw [OAuthClient.ApplyAuth_live c st userKey clk req w r s1 tok hstore hhost hload herr htok
    hlive, if_neg ha]
  refine ⟨rfl, ?_, ?_, rfl, rfl, rfl, rfl⟩
  · simp [Header.Set]
  · intro k hk
    simp [Header.Set, hk]

/-- C9 at the in-memory store holding a1/r1 for "u1" with expiry 100, the clock at 50. -/
theorem OAuthClient.ApplyAuth_happy_path_witness :
    (exampleMemClient.ApplyAuth "u1" (Clock.const 50) (exampleRequest "api.mangadex.org")
        ⟨exampleMem, [], []⟩).1 = .ok ∧
    (exampleMemClient.ApplyAuth "u1" (Clock.const 50) (exampleRequest "api.mangadex.org")
        ⟨exampleMem, [], []⟩).2.1.Header "Authorization" = some ["Bearer " ++ "a1"] ∧
    (∀ k, k ≠ "Authorization" →
      (exampleMemClient.ApplyAuth "u1" (Clock.const 50) (exampleRequest "api.mangadex.org")
        ⟨exampleMem, [], []⟩).2.1.Header k = (exampleRequest "api.mangadex.org").Header k) ∧
    (exampleMemClient.ApplyAuth "u1" (Clock.const 50) (exampleRequest "api.mangadex.org")
        ⟨exampleMem, [], []⟩).2.1.Host = "api.mangadex.org" ∧
    (exampleMemClient.ApplyAuth "u1" (Clock.const 50) (exampleRequest "api.mangadex.org")
        ⟨exampleMem, [], []⟩).2.2.requests = [] ∧
    (exampleMemClient.ApplyAuth "u1" (Clock.const 50) (exampleRequest "api.mangadex.org")
        ⟨exampleMem, [], []⟩).2.2.saves = [] ∧
    (exampleMemClient.ApplyAuth "u1" (Clock.const 50) (exampleRequest "api.mangadex.org")
        ⟨exampleMem, [], []⟩).2.2.store = exampleMem :=
  OAuthClient.ApplyAuth_happy_path exampleMemClient inMemoryTokenStore "u1" (Clock.const 50)
    (exampleRequest "api.mangadex.org") ⟨exampleMem, [], []⟩
    { tokens := some ⟨"a1", "r1", 60⟩, creds := some ⟨"u1", "c", "s"⟩, expiresAt := 100,
      err := none }
    exampleMem ⟨"a1", "r1", 60⟩ rfl (by decide) rfl rfl rfl (by decide) (by decide)

/-- C10, the claim as stated fails: the stored entry expires at 100 ms and the clock
shows exactly 100 ms at the check. The decoration posts nothing to the token endpoint and calls
`Save` not at all: at the instant equal to `expiresAt` no refresh is triggered. -/
theorem OAuthClient.ApplyAuth_no_refresh_at_expiry :
    (exampleMongo.Load "u1").1.expiresAt = (Clock.const (100 * Millisecond)).atCheck ∧
    (exampleClient.ApplyAuth "u1" (Clock.const (100 * Millisecond)) (exampleRequest "api.mangadex.org")
        ⟨exampleMongo, [], []⟩).1 = .ok ∧
    (exampleClient.ApplyAuth "u1" (Clock.const (100 * Millisecond)) (exampleRequest "api.mangadex.org")
        ⟨exampleMongo, [], []⟩).2.2.requests = [] ∧
    (exampleClient.ApplyAuth "u1" (Clock.const (100 * Millisecond)) (exampleRequest "api.mangadex.org")
        ⟨exampleMongo, [], []⟩).2.2.saves = [] := by
  decide

/-- C10 as amended: for a client with a Token Store and an HTTP client, and a request
whose host contains `apiDomain`, if the store's `Load` returns a token pair without
error, the decoration posts a refresh (exactly one form, the refresh form for the loaded
refresh token and the resolved credentials) when the clock value of the check is strictly
after the loaded `expiresAt`, and posts nothing when it is at or before `expiresAt`. -/
theorem OAuthClient.ApplyAuth_refresh_boundary {σ : Type} (c : OAuthClient σ)
    (st : TokenStore σ) (h : Auth.HTTPClient) (userKey : String) (clk : Clock) (req : Request)
    (w : World σ) (r : LoadResult) (s1 : σ) (tok : OAuthTokens)
    (hstore : c.Store = some st) (hhttp : c.HTTPClient = some h)
    (hhost : stringsContains req.Host apiDomain = true)
    (hload : st.Load clk.atStoreLoad w.store userKey = (r, s1))
    (herr : r.err = none) (htok : r.tokens = some tok) :
    (r.expiresAt < clk.atCheck →
      (c.ApplyAuth userKey clk req w).2.2.requests =
        w.requests ++ [refreshForm tok.RefreshToken (c.resolveCreds r.creds).ClientID
          (c.resolveCreds r.creds).ClientSecret]) ∧
    (clk.atCheck ≤ r.expiresAt → (c.ApplyAuth userKey clk req w).2.2.requests = w.requests) := by
  constructor
  · intro hexp
    rw [OAuthClient.ApplyAuth_expired_world c st userKey clk req w r s1 tok hstore hhost hload
      herr htok hexp, OAuthClient.refresh_some,
      OAuthClient.doTokenRequest_requests c h clk _ _ _ hhttp]
  · intro hlive
    rw [OAuthClient.ApplyAuth_live c st userKey clk req w r s1 tok hstore hhost hload herr htok
      hlive]
    split <;> rfl

/-- C10 as amended, at the document store holding an entry with expiry 100 ms: a
refresh with the clock one nanosecond later, none with the clock at 100 ms. -/
theorem OAuthClient.ApplyAuth_refresh_boundary_witness :
    (exampleClient.ApplyAuth "u1" (Clock.const (100 * Millisecond + 1)) (exampleRequest "api.mangadex.org")
        ⟨exampleMongo, [], []⟩).2.2.requests = [] ++ [refreshForm "r0" "c" "s"] ∧
    (exampleClient.ApplyAuth "u1" (Clock.const (100 * Millisecond)) (exampleRequest "api.mangadex.org")
        ⟨exampleMongo, [], []⟩).2.2.requests = [] :=
  ⟨(OAuthClient.ApplyAuth_refresh_boundary exampleClient mongoTokenStore exampleEndpoint "u1"
      (Clock.const (100 * Millisecond + 1)) (exampleRequest "api.mangadex.org") ⟨exampleMongo, [], []⟩
      { tokens := some ⟨"old", "r0", 0⟩, creds := some ⟨"", "c", "s"⟩, expiresAt := 100 * Millisecond,
        err := none }
      exampleMongo ⟨"old", "r0", 0⟩ rfl rfl (by decide) rfl rfl rfl).1 (by decide),
    (OAuthClient.ApplyAuth_refresh_boundary exampleClient mongoTokenStore exampleEndpoint "u1"
      (Clock.const (100 * Millisecond)) (exampleRequest "api.mangadex.org") ⟨exampleMongo, [], []⟩
      { tokens := some ⟨"old", "r0", 0⟩, creds := some ⟨"", "c", "s"⟩, expiresAt := 100 * Millisecond,
        err := none }
      exampleMongo ⟨"old", "r0", 0⟩ rfl rfl (by decide) rfl rfl rfl).2 (by decide)⟩

/-! ## The cipher -/

/-- Replacing one byte of a list by a different byte changes the sum modulo 256. -/
theorem sum_set_ne (xs : List Byte) (i : Nat) (b : Byte) (hb : xs[i]? ≠ some b)
    (hi : i < xs.length) : (xs.set i b).sum ≠ xs.sum := by
  induction xs generalizing i with
  | nil => simp at hi
  | cons x xs ih =>
    cases i with
    | zero =>
      simp only [List.set_cons_zero, List.sum_cons, ne_eq, add_left_inj]
      intro h
      exact hb (by simp [h])
    | succ j =>
      simp only [List.set_cons_succ, List.sum_cons, ne_eq, add_right_inj]
      exact ih j (by simpa using hb) (by simpa using hi)

/-- The sample AEAD meets the correctness contract. -/
theorem sampleAEAD_correct : sampleAEAD.Correct := by
  intro nonce plaintext _
  simp [sampleAEAD]

/-- The sample AEAD meets the authenticity contract for a change of one byte. -/
theorem sampleAEAD_tamperEvident : sampleAEAD.TamperEvident authenticationFailed := by
  constructor
  · rintro nonce nonce' plaintext _ ⟨i, b, hi, hb, rfl⟩
    have hne := sum_set_ne nonce i b hb hi
    have : ¬ checksum nonce plaintext = checksum (nonce.set i b) plaintext := by
      simp only [checksum, add_left_inj]
      exact fun h => hne h.symm
    simp [sampleAEAD, this]
  · rintro nonce plaintext data' _ ⟨i, b, hi, hb, rfl⟩
    simp only [sampleAEAD, List.length_append, List.length_singleton] at hi hb ⊢
    by_cases hlt : i < plaintext.length
    · have hb' : plaintext[i]? ≠ some b := by
        rwa [List.getElem?_append_left hlt] at hb
      have hne := sum_set_ne plaintext i b hb' hlt
      have : ¬ checksum nonce plaintext = checksum nonce (plaintext.set i b) := by
        simp only [checksum, add_right_inj]
        exact fun h => hne h.symm
      simp [List.set_append, hlt, this]
    · have hi' : i = plaintext.length := by omega
      subst hi'
      have : ¬ b = checksum nonce plaintext := by
        intro h
        apply hb
        simp [h]
      simp [List.set_append, this]

/-- `Decrypt` of a blob made of a nonce of the cipher's nonce size followed by some
data opens the data under that nonce. -/
theorem AESGCMCipher.Decrypt_append (c : AESGCMCipher) (nonce data : List Byte)
    (hn : nonce.length = c.aead.NonceSize) :
    c.Decrypt (nonce ++ data) = c.aead.Open nonce data := by
  simp [AESGCMCipher.Decrypt, ← hn]

/-- C5: for every key of 32 bytes `NewAESGCMCipher` returns a cipher, and when the AEAD
built from the key meets the correctness contract of `cipher.AEAD`, then for every
plaintext (the empty one included) and every nonce of the AEAD's nonce size that
`rand.Read` may deliver, `Encrypt` returns a blob and `Decrypt` of that blob succeeds
with exactly the plaintext. -/
theorem AESGCMCipher.decrypt_encrypt (gcm : List Byte → AEAD) (key : List Byte)
    (hkey : key.length = 32) (hgcm : (gcm key).Correct) :
    ∃ c, NewAESGCMCipher gcm key = .ok c ∧
      ∀ nonce plaintext, nonce.length = c.aead.NonceSize →
        ∃ blob, c.Encrypt (.ok nonce) plaintext = .ok blob ∧ c.Decrypt blob = .ok plaintext := by
  refine ⟨{ aead := gcm key }, by simp [NewAESGCMCipher, hkey], ?_⟩
  intro nonce plaintext hn
  refine ⟨nonce ++ (gcm key).Seal nonce plaintext, rfl, ?_⟩
  rw [AESGCMCipher.Decrypt_append _ _ _ hn]
  exact hgcm nonce plaintext hn

/-- C5 at the key of 32 zero bytes and the sample AEAD. -/
theorem AESGCMCipher.decrypt_encrypt_witness :
    ∃ c, NewAESGCMCipher (fun _ => sampleAEAD) (List.replicate 32 0) = .ok c ∧
      ∀ nonce plaintext, nonce.length = c.aead.NonceSize →
        ∃ blob, c.Encrypt (.ok nonce) plaintext = .ok blob ∧ c.Decrypt blob = .ok plaintext :=
  AESGCMCipher.decrypt_encrypt (fun _ => sampleAEAD) (List.replicate 32 0) (by decide)
    sampleAEAD_correct

/-- C6: for a cipher whose AEAD meets the authenticity contract of `cipher.AEAD` for a
change of one byte, every plaintext and every blob `Encrypt` produced for it with a nonce
of the AEAD's nonce size: replacing any single byte of the blob (in the nonce prefix or
in the sealed part) by a different byte makes `Decrypt` return the AEAD's authentication
error, so `Decrypt` returns no plaintext at all for the changed blob. -/
theorem AESGCMCipher.decrypt_tampered (c : AESGCMCipher) (e : Error)
    (hte : c.aead.TamperEvident e) (nonce plaintext blob blob' : List Byte)
    (hn : nonce.length = c.aead.NonceSize)
    (henc : c.Encrypt (.ok nonce) plaintext = .ok blob) (hd : differAtOne blob blob') :
    c.Decrypt blob' = .error e ∧ ∀ q, c.Decrypt blob' ≠ .ok q := by
  have hblob : blob = nonce ++ c.aead.Seal nonce plaintext := by
    simp only [AESGCMCipher.Encrypt, Except.ok.injEq] at henc
    exact henc.symm
  obtain ⟨i, b, hi, hb, rfl⟩ := hd
  subst hblob
  have key : c.Decrypt ((nonce ++ c.aead.Seal nonce plaintext).set i b) = .error e := by
    rw [List.set_append]
    by_cases hlt : i < nonce.length
    · rw [if_pos hlt, AESGCMCipher.Decrypt_append _ _ _ (by simpa using hn)]
      refine hte.1 nonce _ plaintext hn ⟨i, b, hlt, ?_, rfl⟩
      rwa [List.getElem?_append_left hlt] at hb
    · rw [if_neg hlt, AESGCMCipher.Decrypt_append _ _ _ hn]
      refine hte.2 nonce plaintext _ hn ⟨i - nonce.length, b, ?_, ?_, rfl⟩
      · simp only [List.length_append] at hi
        omega
      · rwa [List.getElem?_append_right (not_lt.mp hlt)] at hb
  refine ⟨key, fun q hq => ?_⟩
  rw [key] at hq
  cases hq

/-- C6 at the sample AEAD, the nonce of 12 zero bytes and the plaintext 1, 2, 3: the
first byte of the nonce prefix of the blob is replaced by 7. -/
theorem AESGCMCipher.decrypt_tampered_witness :
    (AESGCMCipher.mk sampleAEAD).Decrypt
        ((List.replicate 12 0 ++ sampleAEAD.Seal (List.replicate 12 0) [1, 2, 3]).set 0 7)
      = .error authenticationFailed ∧
    ∀ q, (AESGCMCipher.mk sampleAEAD).Decrypt
        ((List.replicate 12 0 ++ sampleAEAD.Seal (List.replicate 12 0) [1, 2, 3]).set 0 7)
      ≠ .ok q :=
  AESGCMCipher.decrypt_tampered ⟨sampleAEAD⟩ authenticationFailed sampleAEAD_tamperEvident
    (List.replicate 12 0) [1, 2, 3]
    (List.replicate 12 0 ++ sampleAEAD.Seal (List.replicate 12 0) [1, 2, 3])
    ((List.replicate 12 0 ++ sampleAEAD.Seal (List.replicate 12 0) [1, 2, 3]).set 0 7)
    (by decide) rfl ⟨0, 7, by decide, by decide, rfl⟩

/-! ## Credential resolution, the refresh form and the stored expiry -/

/-- C11: `resolveCreds` returns the stored credentials `u` when they are present with
non-empty `ClientID` and non-empty `ClientSecret`; it returns the client's default
credentials when they are present with an empty `ClientID` or an empty `ClientSecret`,
and when they are absent. Conversely, a result other than the default credentials is
always such a present and complete `u`. -/
theorem OAuthClient.resolveCreds_cases {σ : Type} (c : OAuthClient σ) :
    (∀ u : OAuthCredentials, u.ClientID ≠ "" → u.ClientSecret ≠ "" →
      c.resolveCreds (some u) = u) ∧
    (∀ u : OAuthCredentials, u.ClientID = "" ∨ u.ClientSecret = "" →
      c.resolveCreds (some u) = c.DefaultCreds) ∧
    c.resolveCreds none = c.DefaultCreds ∧
    (∀ userCreds, c.resolveCreds userCreds ≠ c.DefaultCreds →
      ∃ u, userCreds = some u ∧ u.ClientID ≠ "" ∧ u.ClientSecret ≠ "" ∧
        c.resolveCreds userCreds = u) := by
  refine ⟨?_, ?_, rfl, ?_⟩
  · intro u h1 h2
    simp [OAuthClient.resolveCreds, h1, h2]
  · intro u h
    rcases h with h | h <;> simp [OAuthClient.resolveCreds, h]
  · intro userCreds hne
    cases userCreds with
    | none => exact absurd rfl hne
    | some u =>
      by_cases hc : u.ClientID ≠ "" ∧ u.ClientSecret ≠ ""
      · exact ⟨u, rfl, hc.1, hc.2, by simp [OAuthClient.resolveCreds, hc.1, hc.2]⟩
      · exact absurd (by simp only [OAuthClient.resolveCreds, if_neg hc]) hne

/-- C11 at the client with default credentials dc/ds: complete stored credentials c/s
are returned, stored credentials with an empty secret give the default, and a result
that is not the default is the complete stored value. -/
theorem OAuthClient.resolveCreds_cases_witness :
    exampleClient.resolveCreds (some ⟨"u1", "c", "s"⟩) = ⟨"u1", "c", "s"⟩ ∧
    exampleClient.resolveCreds (some ⟨"u1", "c", ""⟩) = exampleClient.DefaultCreds ∧
    ∃ u, some (OAuthCredentials.mk "u1" "c" "s") = some u ∧ u.ClientID ≠ "" ∧
      u.ClientSecret ≠ "" ∧ exampleClient.resolveCreds (some ⟨"u1", "c", "s"⟩) = u :=
  ⟨(OAuthClient.resolveCreds_cases exampleClient).1 ⟨"u1", "c", "s"⟩ (by decide) (by decide),
    (OAuthClient.resolveCreds_cases exampleClient).2.1 ⟨"u1", "c", ""⟩ (Or.inr rfl),
    (OAuthClient.resolveCreds_cases exampleClient).2.2.2 (some ⟨"u1", "c", "s"⟩) (by decide)⟩

/-- The fields of the refresh form. -/
theorem refreshForm_get (refreshToken clientID clientSecret : String) :
    (refreshForm refreshToken clientID clientSecret).Get "grant_type" = "refresh_token" ∧
    (refreshForm refreshToken clientID clientSecret).Get "refresh_token" = refreshToken ∧
    (refreshForm refreshToken clientID clientSecret).Get "client_id" = clientID ∧
    (refreshForm refreshToken clientID clientSecret).Get "client_secret" = clientSecret := by
  simp [refreshForm_eq, Form.Get]

/-- C12: when the decoration finds a stored pair past its expiry (client with a Token
Store and an HTTP client, request host containing `apiDomain`), it posts exactly one
form; in it `grant_type` is refresh_token, `refresh_token` is the stored refresh token,
and `client_id`, `client_secret` are those of the resolved credentials. When the stored
credentials are absent or have an empty `ClientID` or `ClientSecret`, the form carries
the `ClientID` and `ClientSecret` of the client's default credentials. -/
theorem OAuthClient.ApplyAuth_refresh_form {σ : Type} (c : OAuthClient σ)
    (st : TokenStore σ) (h : Auth.HTTPClient) (userKey : String) (clk : Clock) (req : Request)
    (w : World σ) (r : LoadResult) (s1 : σ) (tok : OAuthTokens)
    (hstore : c.Store = some st) (hhttp : c.HTTPClient = some h)
    (hhost : stringsContains req.Host apiDomain = true)
    (hload : st.Load clk.atStoreLoad w.store userKey = (r, s1))
    (herr : r.err = none) (htok : r.tokens = some tok) (hexp : r.expiresAt < clk.atCheck) :
    ∃ form : Form, (c.ApplyAuth userKey clk req w).2.2.requests = w.requests ++ [form] ∧
      form.Get "grant_type" = "refresh_token" ∧
      form.Get "refresh_token" = tok.RefreshToken ∧
      form.Get "client_id" = (c.resolveCreds r.creds).ClientID ∧
      form.Get "client_secret" = (c.resolveCreds r.creds).ClientSecret ∧
      ((r.creds = none ∨ ∃ u, r.creds = some u ∧ (u.ClientID = "" ∨ u.ClientSecret = "")) →
        form.Get "client_id" = c.DefaultCreds.ClientID ∧
        form.Get "client_secret" = c.DefaultCreds.ClientSecret) := by
  refine ⟨refreshForm tok.RefreshToken (c.resolveCreds r.creds).ClientID
    (c.resolveCreds r.creds).ClientSecret, ?_, ?_⟩
  · rw [OAuthClient.ApplyAuth_expired_world c st userKey clk req w r s1 tok hstore hhost hload
      herr htok hexp, OAuthClient.refresh_some,
      OAuthClient.doTokenRequest_requests c h clk _ _ _ hhttp]
  · obtain ⟨h1, h2, h3, h4⟩ := refreshForm_get tok.RefreshToken
      (c.resolveCreds r.creds).ClientID (c.resolveCreds r.creds).ClientSecret
    refine ⟨h1, h2, h3, h4, ?_⟩
    intro hd
    have hdef : c.resolveCreds r.creds = c.DefaultCreds := by
      rcases hd with hn | ⟨u, hu, he⟩
      · rw [hn]; rfl
      · rw [hu]
        rcases he with he | he <;> simp [OAuthClient.resolveCreds, he]
    rw [h3, h4, hdef]
    exact ⟨rfl, rfl⟩

/-- C12 at the document store holding for "u2" a pair without client identity, expired
(at 100 ms) at the clock value 200 ms: the form posted carries r2 and the defaults dc/ds. -/
theorem OAuthClient.ApplyAuth_refresh_form_witness :
    ∃ form : Form,
      (exampleClient.ApplyAuth "u2" (Clock.const (200 * Millisecond)) (exampleRequest "api.mangadex.org")
        ⟨exampleMongoNoCreds, [], []⟩).2.2.requests = [] ++ [form] ∧
      form.Get "grant_type" = "refresh_token" ∧
      form.Get "refresh_token" = "r2" ∧
      form.Get "client_id" = "dc" ∧
      form.Get "client_secret" = "ds" ∧
      (((none : Option OAuthCredentials) = none ∨
          ∃ u, (none : Option OAuthCredentials) = some u ∧
            (u.ClientID = "" ∨ u.ClientSecret = "")) →
        form.Get "client_id" = "dc" ∧ form.Get "client_secret" = "ds") :=
  OAuthClient.ApplyAuth_refresh_form exampleClient mongoTokenStore exampleEndpoint "u2"
    (Clock.const (200 * Millisecond)) (exampleRequest "api.mangadex.org") ⟨exampleMongoNoCreds, [], []⟩
    { tokens := some ⟨"old2", "r2", 0⟩, creds := none, expiresAt := 100 * Millisecond, err := none }
    exampleMongoNoCreds ⟨"old2", "r2", 0⟩ rfl rfl (by decide) rfl rfl rfl (by decide)

/-- A value in the range of a signed 64-bit integer is left alone by `wrapInt64`. -/
theorem wrapInt64_of_range (x : Int) (hlo : -(2 ^ 63) ≤ x) (hhi : x < 2 ^ 63) :
    wrapInt64 x = x := by
  unfold wrapInt64
  rw [Int.emod_eq_of_lt (by omega) (by omega)]
  omega

/-- The expiry `storeTokens` computes when the TTL hint minus 30 seconds fits a
`time.Duration`. -/
theorem storedExpiry_of_range (now : Time) (tok : OAuthTokens)
    (hlo : -9223372036 ≤ tok.ExpiresIn - 30) (hhi : tok.ExpiresIn - 30 ≤ 9223372036) :
    storedExpiry now tok = now + (tok.ExpiresIn - 30) * Second := by
  unfold storedExpiry Second
  rw [wrapInt64_of_range (tok.ExpiresIn - 30) (by omega) (by omega),
    wrapInt64_of_range _ (by omega) (by omega)]

/-- C13, the claim as stated fails: the token endpoint answers a password grant with
status 200 and the TTL hint 10000000000, the clock shows 0 at write time. The entry
handed to `Save` has the decoded tokens, but its `expiresAt` is -8446744103709551616
nanoseconds (in the past), not 0 + (10000000000 - 30) seconds: the product with
`time.Second` does not fit 64 bits. -/
theorem OAuthClient.storeTokens_expiry_wraps :
    ((exampleClientWith exampleLongLivedEndpoint).Login (Clock.const 0) "user" "pw"
        (some ⟨"u1", "c", "s"⟩) ⟨exampleMongo, [], []⟩).1 = .ok ∧
    ((exampleClientWith exampleLongLivedEndpoint).Login (Clock.const 0) "user" "pw"
        (some ⟨"u1", "c", "s"⟩) ⟨exampleMongo, [], []⟩).2.saves =
      [⟨"u1", ⟨"new", "r1", 10000000000⟩, some ⟨"u1", "c", "s"⟩, -8446744103709551616⟩] ∧
    (-8446744103709551616 : Int) ≠ 0 + (10000000000 - 30) * Second := by
  decide

/-- C13 as amended: for a client with a Token Store and an HTTP client, when the token
endpoint answers the form with status 200 and a body decoding to `tok`, and the TTL hint
of `tok` minus 30 lies between -9223372036 and 9223372036 seconds (0 and values below 30
included), then `doTokenRequest` hands exactly one entry to `Save`: under the `UserKey`
of the credentials, with tokens exactly `tok`, those credentials, and
`expiresAt = now + (ExpiresIn - 30)` seconds, `now` being the clock at the write. -/
theorem OAuthClient.doTokenRequest_stored_expiry {σ : Type} (c : OAuthClient σ)
    (st : TokenStore σ) (h : Auth.HTTPClient) (clk : Clock) (form : Form)
    (cr : OAuthCredentials) (w : World σ) (tok : OAuthTokens)
    (hstore : c.Store = some st) (hhttp : c.HTTPClient = some h)
    (hresp : h form = .response 200 (.ok tok))
    (hlo : -9223372036 ≤ tok.ExpiresIn - 30) (hhi : tok.ExpiresIn - 30 ≤ 9223372036) :
    (c.doTokenRequest clk form (some cr) w).2.saves =
      w.saves ++ [⟨cr.UserKey, tok, some cr,
        clk.atStoreTokens + (tok.ExpiresIn - 30) * Second⟩] ∧
    (c.doTokenRequest clk form (some cr) w).2.store =
      (st.Save w.store cr.UserKey tok (some cr)
        (clk.atStoreTokens + (tok.ExpiresIn - 30) * Second)).2 := by
  rw [OAuthClient.doTokenRequest_ok c h clk form (some cr) w tok hhttp hresp,
    OAuthClient.storeTokens_some c st _ _ _ _ hstore,
    storedExpiry_of_range _ _ hlo hhi]
  exact ⟨rfl, rfl⟩

/-- C13 as amended, at a body without `expires_in` (TTL hint 0) and the clock at 1000:
the entry expires 30 seconds before the write. -/
theorem OAuthClient.doTokenRequest_stored_expiry_witness :
    ((exampleClientWith (fun _ => .response 200 (.ok ⟨"new", "r1", 0⟩))).doTokenRequest
        (Clock.const 1000) [] (some ⟨"u1", "c", "s"⟩) ⟨exampleMongo, [], []⟩).2.saves =
      [] ++ [⟨"u1", ⟨"new", "r1", 0⟩, some ⟨"u1", "c", "s"⟩,
        (Clock.const 1000).atStoreTokens + ((0 : Int) - 30) * Second⟩] ∧
    ((exampleClientWith (fun _ => .response 200 (.ok ⟨"new", "r1", 0⟩))).doTokenRequest
        (Clock.const 1000) [] (some ⟨"u1", "c", "s"⟩) ⟨exampleMongo, [], []⟩).2.store =
      (mongoTokenStore.Save exampleMongo "u1" ⟨"new", "r1", 0⟩ (some ⟨"u1", "c", "s"⟩)
        ((Clock.const 1000).atStoreTokens + ((0 : Int) - 30) * Second)).2 :=
  OAuthClient.doTokenRequest_stored_expiry
    (exampleClientWith (fun _ => .response 200 (.ok ⟨"new", "r1", 0⟩))) mongoTokenStore
    (fun _ => .response 200 (.ok ⟨"new", "r1", 0⟩)) (Clock.const 1000) []
    ⟨"u1", "c", "s"⟩ ⟨exampleMongo, [], []⟩ ⟨"new", "r1", 0⟩ rfl rfl rfl
    (by decide) (by decide)

/-! ## Login and the token request -/

/-- `Login` with credentials whose `UserKey` is not empty is `doTokenRequest` on the
login form. -/
theorem OAuthClient.Login_some {σ : Type} (c : OAuthClient σ) (clk : Clock)
    (username password : String) (cr : OAuthCredentials) (w : World σ)
    (hkey : cr.UserKey ≠ "") :
    c.Login clk username password (some cr) w =
      c.doTokenRequest clk (loginForm username password cr.ClientID cr.ClientSecret)
        (some cr) w := by
  simp [OAuthClient.Login, hkey, loginForm]

/-- `doTokenRequest` on an answer that is a failure: the error is returned after one
post, and nothing else changes. -/
theorem OAuthClient.doTokenRequest_fail {σ : Type} (c : OAuthClient σ) (h : Auth.HTTPClient)
    (clk : Clock) (form : Form) (creds : Option OAuthCredentials) (w : World σ) (e : Error)
    (hhttp : c.HTTPClient = some h) (hfail : (h form).FailsWith e) :
    c.doTokenRequest clk form creds w =
      (.error e, { store := w.store, requests := w.requests ++ [form], saves := w.saves }) := by
  unfold OAuthClient.doTokenRequest
  rw [hhttp]
  cases hr : h form with
  | transportError err =>
    rw [hr] at hfail
    simp only [HTTPResult.FailsWith] at hfail
    simp [hr, hfail]
  | response code decoded =>
    rw [hr] at hfail
    simp only [HTTPResult.FailsWith] at hfail
    rcases hfail with ⟨hc, he⟩ | ⟨hc, hd⟩
    · simp [hr, hc, he]
    · simp [hr, hc, hd]

/-- C14: for present credentials with an empty `UserKey`, and every username and
password, `Login` returns the error "missing user key" and leaves the world as it was:
nothing is posted to the token endpoint, `Save` is not called, the store is unchanged.
For credentials with a non-empty `UserKey` the check passes: `Login` goes on to the token
request with the login form. -/
theorem OAuthClient.Login_user_key_check {σ : Type} (c : OAuthClient σ) (clk : Clock)
    (username password : String) (cr : OAuthCredentials) (w : World σ) :
    (cr.UserKey = "" →
      c.Login clk username password (some cr) w = (.error .missingUserKey, w)) ∧
    (cr.UserKey ≠ "" →
      c.Login clk username password (some cr) w =
        c.doTokenRequest clk (loginForm username password cr.ClientID cr.ClientSecret)
          (some cr) w) := by
  refine ⟨fun hkey => ?_, fun hkey => OAuthClient.Login_some c clk username password cr w hkey⟩
  simp [OAuthClient.Login, hkey]

/-- C14 at credentials with the empty `UserKey` and at credentials with `UserKey` u1. -/
theorem OAuthClient.Login_user_key_check_witness :
    exampleClient.Login (Clock.const 0) "user" "pw" (some ⟨"", "c", "s"⟩)
        ⟨exampleMongo, [], []⟩ = (.error .missingUserKey, ⟨exampleMongo, [], []⟩) ∧
    exampleClient.Login (Clock.const 0) "user" "pw" (some ⟨"u1", "c", "s"⟩)
        ⟨exampleMongo, [], []⟩ =
      exampleClient.doTokenRequest (Clock.const 0) (loginForm "user" "pw" "c" "s")
        (some ⟨"u1", "c", "s"⟩) ⟨exampleMongo, [], []⟩ :=
  ⟨(OAuthClient.Login_user_key_check exampleClient (Clock.const 0) "user" "pw"
      ⟨"", "c", "s"⟩ ⟨exampleMongo, [], []⟩).1 rfl,
    (OAuthClient.Login_user_key_check exampleClient (Clock.const 0) "user" "pw"
      ⟨"u1", "c", "s"⟩ ⟨exampleMongo, [], []⟩).2 (by decide)⟩

/-- C15: for a client with an HTTP client, when the answer of the token endpoint is a
failure with error `e` (a transport error, any status other than 200, other 2xx codes
included, or an undecodable body), `Login` (credentials with non-empty `UserKey`) and
`refresh` return the error `e`, post exactly one form, do not call `Save`, and leave the
store unchanged. -/
theorem OAuthClient.token_failure_atomic {σ : Type} (c : OAuthClient σ)
    (h : Auth.HTTPClient) (clk : Clock) (w : World σ) (e : Error)
    (hhttp : c.HTTPClient = some h) :
    (∀ (username password : String) (cr : OAuthCredentials), cr.UserKey ≠ "" →
      (h (loginForm username password cr.ClientID cr.ClientSecret)).FailsWith e →
      c.Login clk username password (some cr) w =
        (.error e, { store := w.store,
                     requests := w.requests ++
                       [loginForm username password cr.ClientID cr.ClientSecret],
                     saves := w.saves })) ∧
    (∀ (tok : OAuthTokens) (cr : OAuthCredentials),
      (h (refreshForm tok.RefreshToken cr.ClientID cr.ClientSecret)).FailsWith e →
      c.refresh clk (some tok) (some cr) w =
        (.error e, { store := w.store,
                     requests := w.requests ++
                       [refreshForm tok.RefreshToken cr.ClientID cr.ClientSecret],
                     saves := w.saves })) := by
  constructor
  · intro username password cr hkey hfail
    rw [OAuthClient.Login_some c clk username password cr w hkey,
      OAuthClient.doTokenRequest_fail c h clk _ _ w e hhttp hfail]
  · intro tok cr hfail
    rw [OAuthClient.refresh_some,
      OAuthClient.doTokenRequest_fail c h clk _ _ w e hhttp hfail]

/-- C15 at a token endpoint that answers with status 201 and a decodable pair: `Login`
and `refresh` fail with "oauth request failed" after one post, the store untouched. -/
theorem OAuthClient.token_failure_atomic_witness :
    (exampleClientWith exampleEndpoint201).Login (Clock.const 0) "user" "pw"
        (some ⟨"u1", "c", "s"⟩) ⟨exampleMongo, [], []⟩ =
      (.error .oauthRequestFailed,
        { store := exampleMongo, requests := [] ++ [loginForm "user" "pw" "c" "s"],
          saves := [] }) ∧
    (exampleClientWith exampleEndpoint201).refresh (Clock.const 0) (some ⟨"old", "r0", 0⟩)
        (some ⟨"u1", "c", "s"⟩) ⟨exampleMongo, [], []⟩ =
      (.error .oauthRequestFailed,
        { store := exampleMongo, requests := [] ++ [refreshForm "r0" "c" "s"],
          saves := [] }) :=
  ⟨(OAuthClient.token_failure_atomic (exampleClientWith exampleEndpoint201) exampleEndpoint201
      (Clock.const 0) ⟨exampleMongo, [], []⟩ .oauthRequestFailed rfl).1 "user" "pw"
      ⟨"u1", "c", "s"⟩ (by decide) (Or.inl ⟨by decide, rfl⟩),
    (OAuthClient.token_failure_atomic (exampleClientWith exampleEndpoint201) exampleEndpoint201
      (Clock.const 0) ⟨exampleMongo, [], []⟩ .oauthRequestFailed rfl).2 ⟨"old", "r0", 0⟩
      ⟨"u1", "c", "s"⟩ (Or.inl ⟨by decide, rfl⟩)⟩

/-- `storeTokens` with non-nil credentials returns normally, whatever the store does
and also without a store. -/
theorem OAuthClient.storeTokens_outcome {σ : Type} (c : OAuthClient σ) (now : Time)
    (tok : OAuthTokens) (cr : OAuthCredentials) (w : World σ) :
    (c.storeTokens now tok (some cr) w).1 = .ok := by
  unfold OAuthClient.storeTokens
  cases c.Store <;> rfl

/-- C16: for every client with an HTTP client (whatever its Token Store, one whose `Save`
returns an error and no store at all included), when the token endpoint answers with
status 200 and a decodable body, `Login` (credentials with non-empty `UserKey`) and
`refresh` return success: the result of `Save` has no influence on the result. -/
theorem OAuthClient.persistence_best_effort {σ : Type} (c : OAuthClient σ)
    (h : Auth.HTTPClient) (clk : Clock) (w : World σ) (newTok : OAuthTokens)
    (hhttp : c.HTTPClient = some h) :
    (∀ (username password : String) (cr : OAuthCredentials), cr.UserKey ≠ "" →
      h (loginForm username password cr.ClientID cr.ClientSecret) = .response 200 (.ok newTok) →
      (c.Login clk username password (some cr) w).1 = .ok) ∧
    (∀ (tok : OAuthTokens) (cr : OAuthCredentials),
      h (refreshForm tok.RefreshToken cr.ClientID cr.ClientSecret) = .response 200 (.ok newTok) →
      (c.refresh clk (some tok) (some cr) w).1 = .ok) := by
  constructor
  · intro username password cr hkey hresp
    rw [OAuthClient.Login_some c clk username password cr w hkey,
      OAuthClient.doTokenRequest_ok c h clk _ _ w newTok hhttp hresp]
    exact OAuthClient.storeTokens_outcome c _ _ _ _
  · intro tok cr hresp
    rw [OAuthClient.refresh_some, OAuthClient.doTokenRequest_ok c h clk _ _ w newTok hhttp hresp]
    exact OAuthClient.storeTokens_outcome c _ _ _ _

/-- C16 at a store whose `Save` returns an error: `Save` fails for the call `Login`
makes, `Login` and `refresh` return success all the same, and so does `Login` of the
client without a Token Store. -/
theorem OAuthClient.persistence_best_effort_witness :
    (failingStore.Save () "u1" ⟨"new", "r1", 3600⟩ (some ⟨"u1", "c", "s"⟩)
        (storedExpiry 0 ⟨"new", "r1", 3600⟩)).1 = some (.external "store unavailable") ∧
    (exampleFailingStoreClient.Login (Clock.const 0) "user" "pw" (some ⟨"u1", "c", "s"⟩)
        ⟨(), [], []⟩).1 = .ok ∧
    (exampleFailingStoreClient.refresh (Clock.const 0) (some ⟨"old", "r0", 0⟩)
        (some ⟨"u1", "c", "s"⟩) ⟨(), [], []⟩).1 = .ok ∧
    ({ exampleFailingStoreClient with Store := none }.Login (Clock.const 0) "user" "pw"
        (some ⟨"u1", "c", "s"⟩) ⟨(), [], []⟩).1 = .ok :=
  ⟨rfl,
    (OAuthClient.persistence_best_effort exampleFailingStoreClient exampleEndpointOk
      (Clock.const 0) ⟨(), [], []⟩ ⟨"new", "r1", 3600⟩ rfl).1 "user" "pw" ⟨"u1", "c", "s"⟩
      (by decide) rfl,
    (OAuthClient.persistence_best_effort exampleFailingStoreClient exampleEndpointOk
      (Clock.const 0) ⟨(), [], []⟩ ⟨"new", "r1", 3600⟩ rfl).2 ⟨"old", "r0", 0⟩
      ⟨"u1", "c", "s"⟩ rfl,
    (OAuthClient.persistence_best_effort { exampleFailingStoreClient with Store := none }
      exampleEndpointOk (Clock.const 0) ⟨(), [], []⟩ ⟨"new", "r1", 3600⟩ rfl).1 "user" "pw"
      ⟨"u1", "c", "s"⟩ (by decide) rfl⟩

/-! ## Errors of the decoration -/

/-- C17: for a client with a Token Store and a request whose host contains `apiDomain`,
if the store's `Load` for the caller key returns an error, the decoration returns that
same error, leaves the request unchanged (every header, so no `Authorization` is set),
posts nothing to the token endpoint and does not call `Save`. -/
theorem OAuthClient.ApplyAuth_load_error {σ : Type} (c : OAuthClient σ) (st : TokenStore σ)
    (userKey : String) (clk : Clock) (req : Request) (w : World σ) (r : LoadResult) (s1 : σ)
    (e : Error)
    (hstore : c.Store = some st) (hhost : stringsContains req.Host apiDomain = true)
    (hload : st.Load clk.atStoreLoad w.store userKey = (r, s1)) (herr : r.err = some e) :
    (c.ApplyAuth userKey clk req w).1 = .error e ∧
    (c.ApplyAuth userKey clk req w).2.1 = req ∧
    (∀ k, (c.ApplyAuth userKey clk req w).2.1.Header k = req.Header k) ∧
    (c.ApplyAuth userKey clk req w).2.2.requests = w.requests ∧
    (c.ApplyAuth userKey clk req w).2.2.saves = w.saves ∧
    (c.ApplyAuth userKey clk req w).2.2.store = s1 := by
  have key : c.ApplyAuth userKey clk req w =
      (.error e, req, { store := s1, requests := w.requests, saves := w.saves }) := by
    simp [OAuthClient.ApplyAuth, OAuthClient.LoadFromStore, hstore, hhost, hload, herr]
  rw [key]
  exact ⟨rfl, rfl, fun _ => rfl, rfl, rfl, rfl⟩

/-- C17 at the empty in-memory store: `Load` reports "token not found" for "u1" and the
decoration returns it. -/
theorem OAuthClient.ApplyAuth_load_error_witness :
    (exampleMemClient.ApplyAuth "u1" (Clock.const 50) (exampleRequest "api.mangadex.org")
        ⟨NewInMemoryTokenStore, [], []⟩).1 = .error .tokenNotFound ∧
    (exampleMemClient.ApplyAuth "u1" (Clock.const 50) (exampleRequest "api.mangadex.org")
        ⟨NewInMemoryTokenStore, [], []⟩).2.1 = exampleRequest "api.mangadex.org" ∧
    (∀ k, (exampleMemClient.ApplyAuth "u1" (Clock.const 50) (exampleRequest "api.mangadex.org")
        ⟨NewInMemoryTokenStore, [], []⟩).2.1.Header k
      = (exampleRequest "api.mangadex.org").Header k) ∧
    (exampleMemClient.ApplyAuth "u1" (Clock.const 50) (exampleRequest "api.mangadex.org")
        ⟨NewInMemoryTokenStore, [], []⟩).2.2.requests = [] ∧
    (exampleMemClient.ApplyAuth "u1" (Clock.const 50) (exampleRequest "api.mangadex.org")
        ⟨NewInMemoryTokenStore, [], []⟩).2.2.saves = [] ∧
    (exampleMemClient.ApplyAuth "u1" (Clock.const 50) (exampleRequest "api.mangadex.org")
        ⟨NewInMemoryTokenStore, [], []⟩).2.2.store = NewInMemoryTokenStore :=
  OAuthClient.ApplyAuth_load_error exampleMemClient inMemoryTokenStore "u1" (Clock.const 50)
    (exampleRequest "api.mangadex.org") ⟨NewInMemoryTokenStore, [], []⟩
    { tokens := none, creds := none, expiresAt := zeroTime, err := some .tokenNotFound }
    NewInMemoryTokenStore .tokenNotFound rfl (by decide) rfl rfl

/-- C18 (the code departs from the claim): the document store holds for "u1" the pair
old/r0 with expiry 100 ms, the clock shows 200 ms, and the token endpoint answers the refresh
with status 200 and a pair whose access token is empty. The pair resolved by the refresh,
the one handed to `Save`, has an empty access token, yet the decoration returns success
and sets `Authorization` to "Bearer old": the check for an empty access token looks at
the pair loaded before the refresh. -/
theorem OAuthClient.ApplyAuth_empty_refreshed_token :
    ((exampleClientWith exampleEmptyTokenEndpoint).ApplyAuth "u1" (Clock.const (200 * Millisecond))
        (exampleRequest "api.mangadex.org") ⟨exampleMongo, [], []⟩).2.2.saves.map
      (fun sv => sv.tokens.AccessToken) = [""] ∧
    ((exampleClientWith exampleEmptyTokenEndpoint).ApplyAuth "u1" (Clock.const (200 * Millisecond))
        (exampleRequest "api.mangadex.org") ⟨exampleMongo, [], []⟩).1 = .ok ∧
    ((exampleClientWith exampleEmptyTokenEndpoint).ApplyAuth "u1" (Clock.const (200 * Millisecond))
        (exampleRequest "api.mangadex.org") ⟨exampleMongo, [], []⟩).1
      ≠ .error .noAccessToken ∧
    ((exampleClientWith exampleEmptyTokenEndpoint).ApplyAuth "u1" (Clock.const (200 * Millisecond))
        (exampleRequest "api.mangadex.org") ⟨exampleMongo, [], []⟩).2.1.Header
      "Authorization" = some ["Bearer old"] := by
  decide

/-! ## The map of the in-memory store -/

/-- Two in-memory stores with the same lookups are the same store. -/
theorem InMemoryTokenStore.ext_store (m1 m2 : InMemoryTokenStore)
    (h : ∀ k, m1.store k = m2.store k) : m1 = m2 := by
  cases m1
  cases m2
  simp only [InMemoryTokenStore.mk.injEq]
  exact funext h

/-- The lookups of the map after `Save`. -/
theorem InMemoryTokenStore.store_Save (m : InMemoryTokenStore) (key : String)
    (tokens : OAuthTokens) (creds : Option OAuthCredentials) (exp : Time) (k : String) :
    (m.Save key tokens creds exp).2.store k =
      if k = key then some { tokens := tokens, creds := creds, expiresAt := exp }
      else m.store k := by
  cases creds <;> simp [InMemoryTokenStore.Save, InMemoryTokenStore.insert]

/-- C19: for every in-memory store and key, after `Save(key, tokA, credsA, expA)` and
then `Save(key, tokB, credsB, expB)` with `credsB` non-nil, `Load(key)` at a clock value
not after `expB` returns exactly `(tokB, credsB, expB, nil)`; the map then holds for the
key the one entry of the second `Save` and for every other key what it held before; and
`Save` with the same arguments twice leaves the same map as `Save` once. -/
theorem InMemoryTokenStore.last_write_wins (m : InMemoryTokenStore) (key : String)
    (tokA tokB : OAuthTokens) (credsA : Option OAuthCredentials) (credsB : OAuthCredentials)
    (expA expB now : Time) (hlive : now ≤ expB) :
    (((m.Save key tokA credsA expA).2.Save key tokB (some credsB) expB).2.Load now key).1 =
      { tokens := some tokB, creds := some credsB, expiresAt := expB, err := none } ∧
    (∀ k, ((m.Save key tokA credsA expA).2.Save key tokB (some credsB) expB).2.store k =
      if k = key then some { tokens := tokB, creds := some credsB, expiresAt := expB }
      else m.store k) ∧
    ((m.Save key tokB (some credsB) expB).2.Save key tokB (some credsB) expB).2 =
      (m.Save key tokB (some credsB) expB).2 := by
  refine ⟨?_, ?_, ?_⟩
  · rw [InMemoryTokenStore.Load_of_entry now _ key _
      (InMemoryTokenStore.store_Save_self _ key tokB (some credsB) expB)]
    simp [not_lt.mpr hlive]
  · intro k
    rw [InMemoryTokenStore.store_Save, InMemoryTokenStore.store_Save]
    by_cases hk : k = key <;> simp [hk]
  · apply InMemoryTokenStore.ext_store
    intro k
    rw [InMemoryTokenStore.store_Save, InMemoryTokenStore.store_Save]
    by_cases hk : k = key <;> simp [hk]

/-- C19 at the store already holding a1/r1 for "u1": a second `Save` of a2/r2 with
expiry 200, read at the clock value 150. -/
theorem InMemoryTokenStore.last_write_wins_witness :
    (((NewInMemoryTokenStore.Save "u1" ⟨"a1", "r1", 60⟩ (some ⟨"u1", "c", "s"⟩) 100).2.Save
        "u1" ⟨"a2", "r2", 60⟩ (some ⟨"u1", "c2", "s2"⟩) 200).2.Load 150 "u1").1 =
      { tokens := some ⟨"a2", "r2", 60⟩, creds := some ⟨"u1", "c2", "s2"⟩, expiresAt := 200,
        err := none } ∧
    (∀ k, ((NewInMemoryTokenStore.Save "u1" ⟨"a1", "r1", 60⟩ (some ⟨"u1", "c", "s"⟩)
        100).2.Save "u1" ⟨"a2", "r2", 60⟩ (some ⟨"u1", "c2", "s2"⟩) 200).2.store k =
      if k = "u1" then
        some { tokens := ⟨"a2", "r2", 60⟩, creds := some ⟨"u1", "c2", "s2"⟩, expiresAt := 200 }
      else NewInMemoryTokenStore.store k) ∧
    ((NewInMemoryTokenStore.Save "u1" ⟨"a2", "r2", 60⟩ (some ⟨"u1", "c2", "s2"⟩) 200).2.Save
        "u1" ⟨"a2", "r2", 60⟩ (some ⟨"u1", "c2", "s2"⟩) 200).2 =
      (NewInMemoryTokenStore.Save "u1" ⟨"a2", "r2", 60⟩ (some ⟨"u1", "c2", "s2"⟩) 200).2 :=
  InMemoryTokenStore.last_write_wins NewInMemoryTokenStore "u1" ⟨"a1", "r1", 60⟩
    ⟨"a2", "r2", 60⟩ (some ⟨"u1", "c", "s"⟩) ⟨"u1", "c2", "s2"⟩ 100 200 150 (by decide)

/-- C20: a `Load(key)` that finds an entry past its `expiresAt` returns the error
"token expired", removes the entry of that key from the map and leaves the entry of
every other key as it was; a `Load` that returns no error, and a `Load` that finds no
entry, leave the whole map unchanged. -/
theorem InMemoryTokenStore.Load_purge (now : Time) (m : InMemoryTokenStore) (key : String) :
    (∀ e, m.store key = some e → e.expiresAt < now →
      (m.Load now key).1.err = some .tokenExpired ∧
      (m.Load now key).2.store key = none ∧
      ∀ k, k ≠ key → (m.Load now key).2.store k = m.store k) ∧
    ((m.Load now key).1.err = none → (m.Load now key).2 = m) ∧
    (m.store key = none → (m.Load now key).2 = m) := by
  refine ⟨?_, ?_, ?_⟩
  · intro e he hexp
    have hl : m.Load now key =
        ({ tokens := none, creds := none, expiresAt := zeroTime, err := some .tokenExpired },
          m.delete key) := by
      simp [InMemoryTokenStore.Load, he, Time.After, hexp]
    rw [hl]
    refine ⟨rfl, by simp [InMemoryTokenStore.delete], ?_⟩
    intro k hk
    simp [InMemoryTokenStore.delete, hk]
  · intro hok
    unfold InMemoryTokenStore.Load at hok ⊢
    cases hs : m.store key with
    | none => simp [hs] at hok
    | some e =>
      by_cases hexp : now.After e.expiresAt = true
      · simp [hs, hexp] at hok
      · simp [hexp]
  · intro hnone
    simp [InMemoryTokenStore.Load, hnone]

/-- C20 at the store holding for "u1" an entry with expiry 100: read at the clock value
101 the entry is purged and the key "other" keeps its (missing) entry; read at 100 the
map stays; a read of the key "other" leaves the map as it was. -/
theorem InMemoryTokenStore.Load_purge_witness :
    ((exampleMem.Load 101 "u1").1.err = some .tokenExpired ∧
      (exampleMem.Load 101 "u1").2.store "u1" = none ∧
      ∀ k, k ≠ "u1" → (exampleMem.Load 101 "u1").2.store k = exampleMem.store k) ∧
    (exampleMem.Load 100 "u1").2 = exampleMem ∧
    (exampleMem.Load 100 "other").2 = exampleMem :=
  ⟨(InMemoryTokenStore.Load_purge 101 exampleMem "u1").1
      { tokens := ⟨"a1", "r1", 60⟩, creds := some ⟨"u1", "c", "s"⟩, expiresAt := 100 }
      (by decide) (by decide),
    (InMemoryTokenStore.Load_purge 100 exampleMem "u1").2.1 (by decide),
    (InMemoryTokenStore.Load_purge 100 exampleMem "other").2.2 (by decide)⟩

/-! ## The stores: unknown keys, kept credentials, expiry -/

/-- C21: for every in-memory store, every clock value and every key without an entry,
`Load` returns the error "token not found" with nil tokens and nil credentials (and the
zero time), and the store it leaves is the store it found. -/
theorem InMemoryTokenStore.Load_unknown_key (now : Time) (m : InMemoryTokenStore)
    (key : String) (hnone : m.store key = none) :
    m.Load now key =
      ({ tokens := none, creds := none, expiresAt := zeroTime, err := some .tokenNotFound },
        m) := by
  simp [InMemoryTokenStore.Load, hnone]

/-- C21 at the store holding an entry for "u1" only, read for the key "u9". -/
theorem InMemoryTokenStore.Load_unknown_key_witness :
    exampleMem.Load 50 "u9" =
      ({ tokens := none, creds := none, expiresAt := zeroTime, err := some .tokenNotFound },
        exampleMem) :=
  InMemoryTokenStore.Load_unknown_key 50 exampleMem "u9" (by decide)

/-- The document under a key after `Save` of the document store. -/
theorem MongoTokenStore.docs_Save_self (m : MongoTokenStore) (key : String)
    (tokens : OAuthTokens) (creds : Option OAuthCredentials) (exp : Time) :
    (m.Save key tokens creds exp).2.Collection.docs key =
      some { user_key := some key
             access_token := some tokens.AccessToken
             refresh_token := some tokens.RefreshToken
             expires_at := some (bsonDateTime exp)
             client_id := (creds.map (fun c => c.ClientID)) <|>
               ((m.Collection.docs key).bind (fun d => d.client_id))
             client_secret := (creds.map (fun c => c.ClientSecret)) <|>
               ((m.Collection.docs key).bind (fun d => d.client_secret))
             data := (m.Collection.docs key).bind (fun d => d.data) } := by
  cases creds <;> cases hd : m.Collection.docs key <;>
    simp [MongoTokenStore.Save, Collection.UpdateOne, Document.set, Document.empty, hd]

/-- C22, the claim as stated fails, in two ways. Credentials with the client id c and
an empty client secret are not nil, yet after `Save("u1", tok1, creds, 100 ms)` and
`Save("u1", tok2, nil, 200 ms)` on the empty collection `Load("u1")` returns the tokens
of the second `Save` with nil credentials. And with the complete credentials c/s, a
`Load` one nanosecond after the second expiry still returns tokens and credentials from
the document store, where the store of the specification reports the entry as not
found: the observable results differ. -/
theorem MongoTokenStore.incomplete_creds_come_back_nil :
    ((((MongoTokenStore.mk Collection.empty).Save "u1" ⟨"a1", "r1", 60⟩
        (some ⟨"u1", "c", ""⟩) (100 * Millisecond)).2.Save "u1" ⟨"a2", "r2", 60⟩ none
        (200 * Millisecond)).2.Load "u1").1
      = { tokens := some ⟨"a2", "r2", 0⟩, creds := none, expiresAt := 200 * Millisecond,
          err := none } ∧
    ((((MongoTokenStore.mk Collection.empty).Save "u1" ⟨"a1", "r1", 60⟩
        (some ⟨"u1", "c", "s"⟩) (100 * Millisecond)).2.Save "u1" ⟨"a2", "r2", 60⟩ none
        (200 * Millisecond)).2.Load "u1").1.observable
      = (some ("a2", "r2"), some ("c", "s"), false) ∧
    ((((SpecTokenStore.mk (fun _ => none)).Save "u1" ⟨"a1", "r1", 60⟩
        (some ⟨"u1", "c", "s"⟩) (100 * Millisecond)).Save "u1" ⟨"a2", "r2", 60⟩ none
        (200 * Millisecond)).Load (200 * Millisecond + 1) "u1").observable
      = (none, none, true) := by
  decide

/-- C22 as amended: for every collection and key, and credentials whose `ClientID` and
`ClientSecret` are both non-empty, `Save(key, tok1, creds, exp1)` followed by
`Save(key, tok2, nil, exp2)` makes `Load(key)` return without error the access and
refresh tokens of `tok2`, credentials (not nil) with the `ClientID` and `ClientSecret`
of `creds`, and the expiry that the stored datetime of `exp2` denotes; and at every clock
value at which `exp2` has not passed this is the same observable result as the store of
the specification gives for the same sequence. -/
theorem MongoTokenStore.save_nil_creds_preserves (m : MongoTokenStore) (s : SpecTokenStore)
    (key : String) (tok1 tok2 : OAuthTokens) (creds : OAuthCredentials) (exp1 exp2 : Time)
    (hid : creds.ClientID ≠ "") (hsecret : creds.ClientSecret ≠ "") :
    (((m.Save key tok1 (some creds) exp1).2.Save key tok2 none exp2).2.Load key).1 =
      { tokens := some ⟨tok2.AccessToken, tok2.RefreshToken, 0⟩,
        creds := some ⟨"", creds.ClientID, creds.ClientSecret⟩,
        expiresAt := bsonTime (bsonDateTime exp2), err := none } ∧
    (∀ now : Time, now ≤ exp2 →
      (((m.Save key tok1 (some creds) exp1).2.Save key tok2 none exp2).2.Load key).1.observable =
        (((s.Save key tok1 (some creds) exp1).Save key tok2 none exp2).Load now
          key).observable) := by
  have hdoc := MongoTokenStore.docs_Save_self (m.Save key tok1 (some creds) exp1).2 key tok2
    none exp2
  rw [MongoTokenStore.docs_Save_self m key tok1 (some creds) exp1] at hdoc
  have hload : (((m.Save key tok1 (some creds) exp1).2.Save key tok2 none exp2).2.Load key).1 =
      { tokens := some ⟨tok2.AccessToken, tok2.RefreshToken, 0⟩,
        creds := some ⟨"", creds.ClientID, creds.ClientSecret⟩,
        expiresAt := bsonTime (bsonDateTime exp2), err := none } := by
    simp [MongoTokenStore.Load, Collection.FindOne, hdoc, hid, hsecret]
  refine ⟨hload, ?_⟩
  intro now hlive
  rw [hload]
  simp [SpecTokenStore.Save, SpecTokenStore.Load, LoadResult.observable, Time.After,
    not_lt.mpr hlive]

/-- C22 as amended, at the empty collection and the credentials u1/c/s, the second
expiry at 200 ms and the comparison at the clock value 150 ms. -/
theorem MongoTokenStore.save_nil_creds_preserves_witness :
    ((((MongoTokenStore.mk Collection.empty).Save "u1" ⟨"a1", "r1", 60⟩
        (some ⟨"u1", "c", "s"⟩) (100 * Millisecond)).2.Save "u1" ⟨"a2", "r2", 60⟩ none
        (200 * Millisecond)).2.Load "u1").1 =
      { tokens := some ⟨"a2", "r2", 0⟩, creds := some ⟨"", "c", "s"⟩,
        expiresAt := bsonTime (bsonDateTime (200 * Millisecond)), err := none } ∧
    ((((MongoTokenStore.mk Collection.empty).Save "u1" ⟨"a1", "r1", 60⟩
        (some ⟨"u1", "c", "s"⟩) (100 * Millisecond)).2.Save "u1" ⟨"a2", "r2", 60⟩ none
        (200 * Millisecond)).2.Load "u1").1.observable =
      ((((SpecTokenStore.mk (fun _ => none)).Save "u1" ⟨"a1", "r1", 60⟩
        (some ⟨"u1", "c", "s"⟩) (100 * Millisecond)).Save "u1" ⟨"a2", "r2", 60⟩ none
        (200 * Millisecond)).Load (150 * Millisecond) "u1").observable :=
  ⟨(MongoTokenStore.save_nil_creds_preserves ⟨Collection.empty⟩ ⟨fun _ => none⟩ "u1"
      ⟨"a1", "r1", 60⟩ ⟨"a2", "r2", 60⟩ ⟨"u1", "c", "s"⟩ (100 * Millisecond)
      (200 * Millisecond) (by decide) (by decide)).1,
    (MongoTokenStore.save_nil_creds_preserves ⟨Collection.empty⟩ ⟨fun _ => none⟩ "u1"
      ⟨"a1", "r1", 60⟩ ⟨"a2", "r2", 60⟩ ⟨"u1", "c", "s"⟩ (100 * Millisecond)
      (200 * Millisecond) (by decide) (by decide)).2 (150 * Millisecond) (by decide)⟩

/-- C23, the claim as stated fails: the document of "u1" expires at 100 ms and the
clock shows 200 ms. `MongoTokenStore.Load` returns the stored tokens old/r0 without
error; and `EncryptedMongoTokenStore.Load`, after a `Save` with expiry 100 ms, returns
the saved tokens without error at the clock value 200 ms as well. -/
theorem MongoTokenStore.Load_returns_expired :
    (mongoTokenStore.Load (200 * Millisecond) exampleMongo "u1").1 =
      { tokens := some ⟨"old", "r0", 0⟩, creds := some ⟨"", "c", "s"⟩,
        expiresAt := 100 * Millisecond, err := none } ∧
    ((encryptedMongoTokenStore sampleJSON).Load (200 * Millisecond)
        (exampleEncryptedMongo.Save sampleJSON "u1" ⟨"a1", "r1", 60⟩ (some ⟨"u1", "c", "s"⟩)
          (100 * Millisecond)).2 "u1").1 =
      { tokens := some ⟨"a1", "r1", 60⟩, creds := some ⟨"u1", "c", "s"⟩,
        expiresAt := 100 * Millisecond, err := none } := by
  decide

/-- C23 as amended: the `Load` of the two document stores does not look at the clock.
For a key with a stored document, `MongoTokenStore.Load` returns without error the
tokens of the document and the instant of its `expires_at`, whatever the clock shows,
and so does `EncryptedMongoTokenStore.Load` when the blob decrypts and decodes; an
`expires_at` in the past makes no difference. -/
theorem MongoTokenStore.Load_ignores_expiry (now : Time) :
    (∀ (m : MongoTokenStore) (key : String) (doc : Document),
      m.Collection.docs key = some doc →
      (mongoTokenStore.Load now m key).1.err = none ∧
      (mongoTokenStore.Load now m key).1.tokens =
        some ⟨doc.access_token.getD "", doc.refresh_token.getD "", 0⟩ ∧
      (mongoTokenStore.Load now m key).1.expiresAt
        = (doc.expires_at.map bsonTime).getD zeroTime) ∧
    (∀ (json : JSONCodec) (m : EncryptedMongoTokenStore) (key : String) (doc : Document)
      (raw : List Byte) (p : Payload),
      m.Collection.docs key = some doc → m.Cipher.Decrypt (doc.data.getD []) = .ok raw →
      json.Unmarshal raw = .ok p →
      ((encryptedMongoTokenStore json).Load now m key).1 =
        { tokens := some p.Tokens, creds := p.Creds,
          expiresAt := (doc.expires_at.map bsonTime).getD zeroTime, err := none }) := by
  constructor
  · intro m key doc hdoc
    simp [mongoTokenStore, MongoTokenStore.Load, Collection.FindOne, hdoc]
  · intro json m key doc raw p hdoc hdec hun
    simp [encryptedMongoTokenStore, EncryptedMongoTokenStore.Load, Collection.FindOne, hdoc,
      hdec, hun]

/-- C23 as amended, at the document of "u1" with expiry 100 ms and the clock at
200 ms. -/
theorem MongoTokenStore.Load_ignores_expiry_witness :
    (mongoTokenStore.Load (200 * Millisecond) exampleMongo "u1").1.err = none ∧
    (mongoTokenStore.Load (200 * Millisecond) exampleMongo "u1").1.tokens =
      some ⟨exampleDoc.access_token.getD "", exampleDoc.refresh_token.getD "", 0⟩ ∧
    (mongoTokenStore.Load (200 * Millisecond) exampleMongo "u1").1.expiresAt
      = (exampleDoc.expires_at.map bsonTime).getD zeroTime :=
  (MongoTokenStore.Load_ignores_expiry (200 * Millisecond)).1 exampleMongo "u1" exampleDoc rfl

/-! ## The encrypted store and the cipher's checks -/

/-- C25: `NewAESGCMCipher` returns the error "AES-256 requires 32-byte key" for every
key whose length is not 32 (the empty key and keys of 16 or 24 bytes among them), and for
every key of exactly 32 bytes it returns the cipher over the AEAD built from that key. -/
theorem NewAESGCMCipher_key_length (gcm : List Byte → AEAD) (key : List Byte) :
    (key.length ≠ 32 → NewAESGCMCipher gcm key = .error .aes256KeyLength) ∧
    (key.length = 32 → NewAESGCMCipher gcm key = .ok { aead := gcm key }) := by
  constructor
  · intro h
    simp [NewAESGCMCipher, h]
  · intro h
    simp [NewAESGCMCipher, h]

/-- C25 at the keys of 0, 16, 24 and 32 zero bytes. -/
theorem NewAESGCMCipher_key_length_witness :
    NewAESGCMCipher (fun _ => sampleAEAD) [] = .error .aes256KeyLength ∧
    NewAESGCMCipher (fun _ => sampleAEAD) (List.replicate 16 0) = .error .aes256KeyLength ∧
    NewAESGCMCipher (fun _ => sampleAEAD) (List.replicate 24 0) = .error .aes256KeyLength ∧
    NewAESGCMCipher (fun _ => sampleAEAD) (List.replicate 32 0) = .ok { aead := sampleAEAD } :=
  ⟨(NewAESGCMCipher_key_length (fun _ => sampleAEAD) []).1 (by decide),
    (NewAESGCMCipher_key_length (fun _ => sampleAEAD) (List.replicate 16 0)).1 (by decide),
    (NewAESGCMCipher_key_length (fun _ => sampleAEAD) (List.replicate 24 0)).1 (by decide),
    (NewAESGCMCipher_key_length (fun _ => sampleAEAD) (List.replicate 32 0)).2 (by decide)⟩

/-- C26: for every input shorter than the nonce size of the AEAD (the empty input
included) `Decrypt` returns the error "ciphertext too short" and takes no slice; for
every input at least as long as the nonce size the prefix of nonce-size bytes and the
remainder are well defined (the prefix has exactly the nonce size, and prefix and
remainder together are the input), and the result of `Decrypt` is the result of the
AEAD's `Open` on that prefix and remainder. -/
theorem AESGCMCipher.Decrypt_length_check (c : AESGCMCipher) (ciphertext : List Byte) :
    (ciphertext.length < c.aead.NonceSize →
      c.Decrypt ciphertext = .error .ciphertextTooShort) ∧
    (c.aead.NonceSize ≤ ciphertext.length →
      (ciphertext.take c.aead.NonceSize).length = c.aead.NonceSize ∧
      ciphertext.take c.aead.NonceSize ++ ciphertext.drop c.aead.NonceSize = ciphertext ∧
      c.Decrypt ciphertext =
        c.aead.Open (ciphertext.take c.aead.NonceSize) (ciphertext.drop c.aead.NonceSize)) := by
  constructor
  · intro h
    simp [AESGCMCipher.Decrypt, h]
  · intro h
    refine ⟨by simp [h], List.take_append_drop _ _, ?_⟩
    simp [AESGCMCipher.Decrypt, not_lt.mpr h]

/-- C26 at the sample AEAD (nonce size 12): the empty input, and an input of 13 bytes. -/
theorem AESGCMCipher.Decrypt_length_check_witness :
    (AESGCMCipher.mk sampleAEAD).Decrypt [] = .error .ciphertextTooShort ∧
    (AESGCMCipher.mk sampleAEAD).Decrypt (List.replicate 13 5) =
      sampleAEAD.Open ((List.replicate 13 5).take 12) ((List.replicate 13 5).drop 12) :=
  ⟨(AESGCMCipher.Decrypt_length_check ⟨sampleAEAD⟩ []).1 (by decide),
    ((AESGCMCipher.Decrypt_length_check ⟨sampleAEAD⟩ (List.replicate 13 5)).2
      (by decide)).2.2⟩

/-! ## Nil pointers and the unreachable refresh -/

/-- Without a Token Store the decoration of a request whose host contains `apiDomain`
dereferences nil, at every clock: in `refresh` when the second reading of the clock is
later than the first, at `tok.AccessToken` otherwise. -/
theorem OAuthClient.ApplyAuth_no_store_panics {σ : Type} (c : OAuthClient σ)
    (userKey : String) (clk : Clock) (req : Request) (w : World σ)
    (hstore : c.Store = none) (hhost : stringsContains req.Host apiDomain = true) :
    c.ApplyAuth userKey clk req w = (.panic, req, w) := by
  by_cases hexp : clk.atCheck.After clk.atLoadFromStore = true
  · simp [OAuthClient.ApplyAuth, OAuthClient.LoadFromStore, OAuthClient.refresh, hstore, hhost,
      hexp]
  · simp [OAuthClient.ApplyAuth, OAuthClient.LoadFromStore, hstore, hhost, hexp]

/-- C27 (the code departs from the claim): the client has no Token Store and the request
goes to api.mangadex.org. With the clock standing still, and with the clock advancing
between the two readings, the decoration does not return an error: it dereferences the
nil token pair that `LoadFromStore` returned. -/
theorem OAuthClient.ApplyAuth_no_store_crash :
    (exampleNoStoreClient.ApplyAuth "u1" (Clock.const 50) (exampleRequest "api.mangadex.org")
        ⟨(), [], []⟩).1 = .panic ∧
    (exampleNoStoreClient.ApplyAuth "u1" ⟨50, 50, 51, 51⟩ (exampleRequest "api.mangadex.org")
        ⟨(), [], []⟩).1 = .panic ∧
    (exampleNoStoreClient.ApplyAuth "u1" (Clock.const 50) (exampleRequest "api.mangadex.org")
        ⟨(), [], []⟩).1 ≠ .error .noAccessToken := by
  decide

/-- C28 (the code departs from the claim): for every client, clock, username, password
and world, `Login` with nil credentials passes the check of the user key, dereferences
the nil credentials at `creds.ClientID` and so does not return; nothing was posted to
the token endpoint before. -/
theorem OAuthClient.Login_nil_creds_panics {σ : Type} (c : OAuthClient σ) (clk : Clock)
    (username password : String) (w : World σ) :
    c.Login clk username password none w = (.panic, w) := by
  simp [OAuthClient.Login]

/-- The decoration when the store's `Load` returns an error. -/
theorem OAuthClient.ApplyAuth_of_load_error {σ : Type} (c : OAuthClient σ)
    (st : TokenStore σ) (userKey : String) (clk : Clock) (req : Request) (w : World σ)
    (r : LoadResult) (s1 : σ) (e : Error)
    (hstore : c.Store = some st) (hhost : stringsContains req.Host apiDomain = true)
    (hload : st.Load clk.atStoreLoad w.store userKey = (r, s1)) (herr : r.err = some e) :
    c.ApplyAuth userKey clk req w =
      (.error e, req, { store := s1, requests := w.requests, saves := w.saves }) := by
  simp [OAuthClient.ApplyAuth, OAuthClient.LoadFromStore, hstore, hhost, hload, herr]

/-- C29: for a client on the in-memory Token Store and a clock that shows the same
value `t` at every reading of one decoration: if the entry of the caller key is past its
`expiresAt`, the decoration of a request whose host contains `apiDomain` returns the
error of the store's `Load` ("token expired"), leaves the request unchanged, posts
nothing, and the entry is removed from the map; and whatever the store holds and
whatever the request is, the decoration posts nothing to the token endpoint: the refresh
is never reached. -/
theorem OAuthClient.ApplyAuth_inmem_never_refreshes (c : OAuthClient InMemoryTokenStore)
    (userKey : String) (t : Time) (req : Request) (w : World InMemoryTokenStore)
    (hstore : c.Store = some inMemoryTokenStore) :
    (∀ e, stringsContains req.Host apiDomain = true → w.store.store userKey = some e →
      e.expiresAt < t →
      c.ApplyAuth userKey (Clock.const t) req w =
        (.error .tokenExpired, req,
          { store := w.store.delete userKey, requests := w.requests, saves := w.saves })) ∧
    (c.ApplyAuth userKey (Clock.const t) req w).2.2.requests = w.requests ∧
    (c.ApplyAuth userKey (Clock.const t) req w).2.2.saves = w.saves := by
  have hexpired : ∀ e, stringsContains req.Host apiDomain = true →
      w.store.store userKey = some e → e.expiresAt < t →
      c.ApplyAuth userKey (Clock.const t) req w =
        (.error .tokenExpired, req,
          { store := w.store.delete userKey, requests := w.requests, saves := w.saves }) := by
    intro e hhost he hexp
    exact OAuthClient.ApplyAuth_of_load_error c inMemoryTokenStore userKey (Clock.const t) req w
      { tokens := none, creds := none, expiresAt := zeroTime, err := some .tokenExpired }
      (w.store.delete userKey) .tokenExpired hstore hhost
      (by simp [inMemoryTokenStore, InMemoryTokenStore.Load, Clock.const, he, Time.After, hexp])
      rfl
  refine ⟨hexpired, ?_⟩
  by_cases hhost : stringsContains req.Host apiDomain = true
  · cases he : w.store.store userKey with
    | none =>
      rw [OAuthClient.ApplyAuth_of_load_error c inMemoryTokenStore userKey (Clock.const t) req w
        { tokens := none, creds := none, expiresAt := zeroTime, err := some .tokenNotFound }
        w.store .tokenNotFound hstore hhost
        (by simp [inMemoryTokenStore, InMemoryTokenStore.Load, he]) rfl]
      exact ⟨rfl, rfl⟩
    | some e =>
      by_cases hexp : e.expiresAt < t
      · rw [hexpired e hhost he hexp]
        exact ⟨rfl, rfl⟩
      · rw [OAuthClient.ApplyAuth_live c inMemoryTokenStore userKey (Clock.const t) req w
          { tokens := some e.tokens, creds := e.creds, expiresAt := e.expiresAt, err := none }
          w.store e.tokens hstore hhost
          (by
            cases hc : e.creds <;>
              simp [inMemoryTokenStore, InMemoryTokenStore.Load, Clock.const, he, Time.After,
                hexp, hc])
          rfl rfl (by simpa [Clock.const] using not_lt.mp hexp)]
        split <;> exact ⟨rfl, rfl⟩
  · rw [OAuthClient.ApplyAuth_other_host c userKey (Clock.const t) req w
      (by simpa using hhost)]
    exact ⟨rfl, rfl⟩

/-- C29 at the in-memory store holding for "u1" an entry with expiry 100, the clock
showing 101 at every reading. -/
theorem OAuthClient.ApplyAuth_inmem_never_refreshes_witness :
    exampleMemClient.ApplyAuth "u1" (Clock.const 101) (exampleRequest "api.mangadex.org")
        ⟨exampleMem, [], []⟩ =
      (.error .tokenExpired, exampleRequest "api.mangadex.org",
        { store := exampleMem.delete "u1", requests := [], saves := [] }) :=
  (OAuthClient.ApplyAuth_inmem_never_refreshes exampleMemClient "u1" 101
      (exampleRequest "api.mangadex.org") ⟨exampleMem, [], []⟩ rfl).1
    { tokens := ⟨"a1", "r1", 60⟩, creds := some ⟨"u1", "c", "s"⟩, expiresAt := 100 }
    (by decide) (by decide) (by decide)

end Auth

/-! ## The cache key -/

namespace Mangadex

/-- Every digit `hexDigit` gives for a value below 16 is a lowercase hexadecimal digit. -/
theorem hexDigit_mem (n : Nat) (h : n < 16) : hexDigit n ∈ "0123456789abcdef".data := by
  have key : ∀ k : Fin 16, hexDigit k.val ∈ "0123456789abcdef".data := by decide
  exact key ⟨n, h⟩

/-- `hex.EncodeToString` writes two characters per byte. -/
theorem hexEncodeToString_length (bs : List (Fin 256)) :
    (hexEncodeToString bs).length = 2 * bs.length := by
  unfold hexEncodeToString
  rw [String.length_mk]
  induction bs with
  | nil => rfl
  | cons b bs ih =>
    simp only [List.flatMap_cons, List.length_append, List.length_cons, List.length_nil, ih]
    omega

/-- `hex.EncodeToString` writes lowercase hexadecimal digits only. -/
theorem hexEncodeToString_digits (bs : List (Fin 256)) :
    ∀ ch ∈ (hexEncodeToString bs).data, ch ∈ "0123456789abcdef".data := by
  intro ch hch
  simp only [hexEncodeToString, List.mem_flatMap, List.mem_cons, List.mem_singleton,
    List.not_mem_nil, or_false] at hch
  obtain ⟨b, _, hb | hb⟩ := hch
  · rw [hb]
    exact hexDigit_mem _ (by omega)
  · rw [hb]
    exact hexDigit_mem _ (Nat.mod_lt _ (by decide))

/-- The digits of `hexDigit` are the lowercase hexadecimal digits of the value. -/
theorem hexDigit_eq_digitChar (n : Nat) (h : n < 16) : hexDigit n = Nat.digitChar n := by
  have key : ∀ k : Fin 16, hexDigit k.val = Nat.digitChar k.val := by decide
  exact key ⟨n, h⟩

/-- `hex.EncodeToString` writes, for every byte in order, the lowercase hexadecimal
digit of its high four bits and then that of its low four bits. -/
theorem hexEncodeToString_eq (bs : List (Fin 256)) :
    hexEncodeToString bs =
      String.mk (bs.flatMap (fun x => [Nat.digitChar (x.val / 16), Nat.digitChar (x.val % 16)])) := by
  unfold hexEncodeToString
  congr 1
  apply List.flatMap_congr
  intro x _
  rw [hexDigit_eq_digitChar _ (by omega), hexDigit_eq_digitChar _ (Nat.mod_lt _ (by decide))]

/-- `hex.EncodeToString` on bytes that use every digit. -/
theorem hexEncodeToString_all_digits :
    hexEncodeToString [0x01, 0x23, 0x45, 0x67, 0x89, 0xab, 0xcd, 0xef] = "0123456789abcdef" ∧
    hexEncodeToString [0x02, 0xf3, 0x93] = "02f393" := by
  decide

/-- C30: for a digest function that returns 32 bytes, as SHA-256 does: when
`json.Marshal(args)` succeeds with the bytes `b`, `generateKey(method, args)` is `method`,
a colon, and the hexadecimal encoding of the digest of `b`: for every byte of the digest
in order the lowercase hexadecimal digit (`Nat.digitChar`) of its high four bits followed
by that of its low four bits, 64 characters in all, each one of 0-9 and a-f; when
`json.Marshal(args)` fails, it is `method` followed by ":json_marshal_error:" and the
error message. Consequently two argument lists whose serialisation fails with the same
message get the same key for the same method, whatever else they contain. -/
theorem generateKey_cases {α : Type} (jsonMarshal : α → Except String (List (Fin 256)))
    (sha256 : List (Fin 256) → List (Fin 256)) (method : String)
    (hdigest : ∀ b, (sha256 b).length = 32) :
    (∀ args b, jsonMarshal args = .ok b →
      generateKey jsonMarshal sha256 method args =
        method ++ ":" ++ String.mk ((sha256 b).flatMap
          (fun x => [Nat.digitChar (x.val / 16), Nat.digitChar (x.val % 16)])) ∧
      (String.mk ((sha256 b).flatMap
          (fun x => [Nat.digitChar (x.val / 16), Nat.digitChar (x.val % 16)]))).length = 64 ∧
      ∀ ch ∈ (sha256 b).flatMap
          (fun x => [Nat.digitChar (x.val / 16), Nat.digitChar (x.val % 16)]),
        ch ∈ "0123456789abcdef".data) ∧
    (∀ args msg, jsonMarshal args = .error msg →
      generateKey jsonMarshal sha256 method args = method ++ ":json_marshal_error:" ++ msg) ∧
    (∀ args1 args2 msg, jsonMarshal args1 = .error msg → jsonMarshal args2 = .error msg →
      generateKey jsonMarshal sha256 method args1 =
        generateKey jsonMarshal sha256 method args2) := by
  refine ⟨?_, ?_, ?_⟩
  · intro args b hb
    have hkey : generateKey jsonMarshal sha256 method args =
        method ++ ":" ++ hexEncodeToString (sha256 b) := by
      simp [generateKey, hb]
    have hlen := hexEncodeToString_length (sha256 b)
    have hdig := hexEncodeToString_digits (sha256 b)
    rw [hexEncodeToString_eq] at hkey hlen hdig
    refine ⟨hkey, ?_, ?_⟩
    · rw [hlen, hdigest]
    · intro ch hch
      exact hdig ch hch
  · intro args msg hmsg
    simp [generateKey, hmsg]
  · intro args1 args2 msg h1 h2
    simp [generateKey, h1, h2]

/-- C30 at the sample marshaller and digest: the key of a call without request editors
written out, and two calls for different chapters that both pass request editors and
get one key. -/
theorem generateKey_cases_witness :
    generateKey sampleMarshal sampleDigest "GetAtHomeServerChapterIdWithResponse"
        ⟨"abc", 0⟩ =
      "GetAtHomeServerChapterIdWithResponse" ++ ":" ++
        "6162630000000000000000000000000000000000000000000000000000000000" ∧
    generateKey sampleMarshal sampleDigest "GetAtHomeServerChapterIdWithResponse"
        ⟨"abc", 1⟩ =
      "GetAtHomeServerChapterIdWithResponse" ++ ":json_marshal_error:" ++
        "json: unsupported type: mangadex.RequestEditorFn" ∧
    generateKey sampleMarshal sampleDigest "GetAtHomeServerChapterIdWithResponse"
        ⟨"abc", 1⟩ =
      generateKey sampleMarshal sampleDigest "GetAtHomeServerChapterIdWithResponse"
        ⟨"xyz", 2⟩ :=
  ⟨((generateKey_cases sampleMarshal sampleDigest "GetAtHomeServerChapterIdWithResponse"
      (fun b => by simp [sampleDigest])).1 ⟨"abc", 0⟩ [97, 98, 99] rfl).1,
    (generateKey_cases sampleMarshal sampleDigest "GetAtHomeServerChapterIdWithResponse"
      (fun b => by simp [sampleDigest])).2.1 ⟨"abc", 1⟩ _ rfl,
    (generateKey_cases sampleMarshal sampleDigest "GetAtHomeServerChapterIdWithResponse"
      (fun b => by simp [sampleDigest])).2.2 ⟨"abc", 1⟩ ⟨"xyz", 2⟩ _ rfl rfl⟩

end Mangadex
